import Mathlib

/-! # liblebs/logger: dispatch pipeline and rotating file handler

A shallow embedding of `logger.c` and `logger_handlers.c`.

* The intrusive singly linked list `Logger_HandlersList_T` is a Lean `List` of
  handler references, head first.
* Handler references are compared by identity (`base->handler == handler`), so a
  reference is an address, a `Nat`; a `NULL` result is `none`.
* `malloc`, the stdio calls and the collaborators that live outside the two
  source files take their outcome from explicit arguments.
* `size_t` values are natural numbers reduced modulo `2 ^ 64`.
-/

namespace Logger

/-! ## Types declared in the headers -/

/-- Modelled from the spec: the enumeration `Logger_Level_T` of `logger.h`, which is
not part of the sources at hand. The spec orders the five levels
`DEBUG < INFO < WARNING < ERROR < FATAL` and compares them numerically. -/
inductive Logger_Level_T where
  | LOGGER_LEVEL_DEBUG
  | LOGGER_LEVEL_INFO
  | LOGGER_LEVEL_WARNING
  | LOGGER_LEVEL_ERROR
  | LOGGER_LEVEL_FATAL
  deriving DecidableEq, Repr

open Logger_Level_T

/-- Numeric value of a level, in declaration order. -/
def Logger_Level_T.toNat : Logger_Level_T → Nat
  | LOGGER_LEVEL_DEBUG => 0
  | LOGGER_LEVEL_INFO => 1
  | LOGGER_LEVEL_WARNING => 2
  | LOGGER_LEVEL_ERROR => 3
  | LOGGER_LEVEL_FATAL => 4

/-- Modelled from the spec: the result enumeration `Logger_Err_T` of `logger.h`. The
sources name `LOGGER_ERR_OK` and `LOGGER_ERR_OUT_OF_MEMORY`; the spec asks for at
least these and an I/O condition, so every further code is `LOGGER_ERR_OTHER`. -/
inductive Logger_Err_T where
  | LOGGER_ERR_OK
  | LOGGER_ERR_OUT_OF_MEMORY
  | LOGGER_ERR_OTHER (code : Nat)
  deriving DecidableEq, Repr

open Logger_Err_T

/-- A handler reference `Logger_Handler_T`: the address of the handler object. -/
abbrev Logger_Handler_T := Nat

/-- Modelled from the spec: the value behind `Logger_Record_T` (its module is not part
of the sources at hand), with the fields the spec lists for a record. -/
structure Logger_Record_T where
  name : String
  level : Logger_Level_T
  file : String
  line : Nat
  function : String
  timestamp : Int
  message : String
  deriving DecidableEq, Repr

/-- `Logger_Record_getLevel`. -/
def Logger_Record_getLevel (record : Logger_Record_T) : Logger_Level_T :=
  record.level

/-- The chain `Logger_HandlersList_T`: the handlers of the nodes, head first. -/
abbrev Logger_HandlersList_T := List Logger_Handler_T

/-- `struct Logger_T`. -/
structure Logger_T where
  name : String
  level : Logger_Level_T
  handlers : Logger_HandlersList_T
  deriving DecidableEq, Repr

/-! ## The handler layer, a parameter of the dispatch

`Logger_Handler_isLoggable` and `Logger_Handler_publish` belong to the handler
module. The dispatch loop only calls them, so they are taken as they come: both
read a state `W` (handler objects, streams, files), and `publish` changes it. -/

/-- The two handler operations `Logger_logRecord` calls. -/
structure HandlerOps (W : Type) where
  isLoggable : W → Logger_Handler_T → Logger_Record_T → Bool
  publish : W → Logger_Handler_T → Logger_Record_T → Logger_Err_T × W

/-- One turn of the dispatch loop, as seen from outside: the handler of the node
`base`, the state it found, and `some err` when `Logger_Handler_publish` was called
and returned `err`, `none` when the handler declined the record. -/
structure Offer (W : Type) where
  handler : Logger_Handler_T
  before : W
  result : Option Logger_Err_T

/-- The state a turn of the loop leaves behind. -/
def Offer.after {W : Type} (ops : HandlerOps W) (record : Logger_Record_T) (o : Offer W) : W :=
  match o.result with
  | none => o.before
  | some _ => (ops.publish o.before o.handler record).2

/-- Whether `publish` ran in this turn. -/
def Offer.invoked {W : Type} (o : Offer W) : Bool :=
  o.result.isSome

/-- Whether this turn ended in a handler failure. -/
def Offer.failed {W : Type} (o : Offer W) : Bool :=
  match o.result with
  | some e => decide (e ≠ LOGGER_ERR_OK)
  | none => false

/-- What `Logger_logRecord` returns and leaves behind, with the turns it took. -/
structure LogResult (W : Type) where
  err : Logger_Err_T
  world : W
  offers : List (Offer W)

/-! ## logger.c -/

/-- `Logger_HandlersList_new`: `mallocOk` is whether `malloc` returned a node. -/
def Logger_HandlersList_new (mallocOk : Bool) (handler : Logger_Handler_T)
    (next : Logger_HandlersList_T) : Option Logger_HandlersList_T :=
  if mallocOk then some (handler :: next) else none

/-- `Logger_new`: `mallocOk` is whether `malloc` returned the object. -/
def Logger_new (mallocOk : Bool) (name : String) (level : Logger_Level_T) : Option Logger_T :=
  if mallocOk then some { name := name, level := level, handlers := [] } else none

/-- `Logger_getName`. -/
def Logger_getName (self : Logger_T) : String := self.name

/-- `Logger_getLevel`. -/
def Logger_getLevel (self : Logger_T) : Logger_Level_T := self.level

/-- The `while (base)` loop of `Logger_removeHandler`. `visited` holds the nodes from
the head of the chain up to and including `prev`; `base` is the rest. On a match
the node is unlinked (`prev->next = base->next`, or `self->handlers = base->next`
when there is no `prev`), so the chain becomes `visited ++ next`. -/
def Logger_removeHandler.loop (handler : Logger_Handler_T) :
    Logger_HandlersList_T → Logger_HandlersList_T → Option Logger_Handler_T × Logger_HandlersList_T
  | visited, [] => (none, visited)
  | visited, h :: next =>
    if h = handler then (some h, visited ++ next)
    else Logger_removeHandler.loop handler (visited ++ [h]) next

/-- `Logger_removeHandler`: the returned handler and the logger afterwards. -/
def Logger_removeHandler (self : Logger_T) (handler : Logger_Handler_T) :
    Option Logger_Handler_T × Logger_T :=
  let r := Logger_removeHandler.loop handler [] self.handlers
  (r.1, { self with handlers := r.2 })

/-- `Logger_popHandler`: the returned handler and the logger afterwards. -/
def Logger_popHandler (self : Logger_T) : Option Logger_Handler_T × Logger_T :=
  match self.handlers with
  | [] => (none, self)
  | h :: next => (some h, { self with handlers := next })

/-- `Logger_setName`. -/
def Logger_setName (self : Logger_T) (name : String) : Logger_T :=
  { self with name := name }

/-- `Logger_setLevel`. -/
def Logger_setLevel (self : Logger_T) (level : Logger_Level_T) : Logger_T :=
  { self with level := level }

/-- `Logger_addHandler`: the returned handler (`none` for `NULL`) and the logger
afterwards. -/
def Logger_addHandler (mallocOk : Bool) (self : Logger_T) (handler : Logger_Handler_T) :
    Option Logger_Handler_T × Logger_T :=
  match Logger_HandlersList_new mallocOk handler self.handlers with
  | none => (none, self)
  | some head => (some handler, { self with handlers := head })

/-- `Logger_isLoggable`: `level >= self->level`. -/
def Logger_isLoggable (self : Logger_T) (level : Logger_Level_T) : Bool :=
  decide (level.toNat ≥ self.level.toNat)

/-- The `for` loop of `Logger_logRecord`, from the node `base` on, with the current
value of `err`. A non-OK result of `publish` leaves the loop (`break`). -/
def Logger_logRecord.loop {W : Type} (ops : HandlerOps W) (record : Logger_Record_T) :
    Logger_HandlersList_T → Logger_Err_T → W → List (Offer W) → LogResult W
  | [], err, w, offers => { err := err, world := w, offers := offers }
  | h :: next, err, w, offers =>
    if ops.isLoggable w h record then
      let r := ops.publish w h record
      let offers' := offers ++ [{ handler := h, before := w, result := some r.1 }]
      if LOGGER_ERR_OK ≠ r.1 then
        { err := r.1, world := r.2, offers := offers' }
      else
        Logger_logRecord.loop ops record next r.1 r.2 offers'
    else
      Logger_logRecord.loop ops record next err w
        (offers ++ [{ handler := h, before := w, result := none }])

/-- `Logger_logRecord`. -/
def Logger_logRecord {W : Type} (ops : HandlerOps W) (self : Logger_T)
    (record : Logger_Record_T) (w : W) : LogResult W :=
  if Logger_isLoggable self (Logger_Record_getLevel record) then
    Logger_logRecord.loop ops record self.handlers LOGGER_ERR_OK w []
  else
    { err := LOGGER_ERR_OK, world := w, offers := [] }

/-- The handlers `publish` was called on, in call order. -/
def LogResult.invoked {W : Type} (r : LogResult W) : List Logger_Handler_T :=
  (r.offers.filter Offer.invoked).map Offer.handler

/-- The turns `os` start in state `w`, each starts where the one before it ended,
and the last one ends in `w'`. -/
def Threaded {W : Type} (ops : HandlerOps W) (record : Logger_Record_T) :
    W → List (Offer W) → W → Prop
  | w, [], w' => w' = w
  | w, o :: os, w' => o.before = w ∧ Threaded ops record (o.after ops record) os w'

/-- `Logger_addHandler` called once for each handler of `hs`, first to last, every
allocation succeeding. -/
def addHandlers (self : Logger_T) (hs : List Logger_Handler_T) : Logger_T :=
  hs.foldl (fun lg h => (Logger_addHandler true lg h).2) self

/-- `Logger_popHandler` called `n` times in a row: the values returned, first call
first, and the logger afterwards. -/
def popHandlers : Nat → Logger_T → List (Option Logger_Handler_T) × Logger_T
  | 0, self => ([], self)
  | n + 1, self =>
    let r := Logger_popHandler self
    let rest := popHandlers n r.2
    (r.1 :: rest.1, rest.2)

/-- A small handler layer to run the dispatch on: the state is the list of handlers
published to so far; the handlers of `declining` refuse every record and those of
`failing` return an error from `publish`. -/
def sampleOps (failing declining : List Logger_Handler_T) : HandlerOps (List Logger_Handler_T) where
  isLoggable := fun _ h _ => !(declining.contains h)
  publish := fun w h _ =>
    (if failing.contains h then LOGGER_ERR_OTHER 1 else LOGGER_ERR_OK, w ++ [h])

/-- A logger named `app` with the given threshold and chain. -/
def sampleLogger (level : Logger_Level_T) (handlers : Logger_HandlersList_T) : Logger_T :=
  { name := "app", level := level, handlers := handlers }

/-- A record at the given level. -/
def sampleRecord (level : Logger_Level_T) : Logger_Record_T :=
  { name := "app", level := level, file := "main.c", line := 1, function := "main",
    timestamp := 0, message := "hello" }

/-- Modelled from the spec: `Logger_Record_new` (its module is not part of the sources
at hand) builds the record from the fields it is given, or returns `NULL` when its
allocation fails. -/
def Logger_Record_new (mallocOk : Bool) (name : String) (level : Logger_Level_T)
    (file : String) (line : Nat) (function : String) (timestamp : Int) (message : String) :
    Option Logger_Record_T :=
  if mallocOk then
    some { name := name, level := level, file := file, line := line, function := function,
           timestamp := timestamp, message := message }
  else none

/-- `_Logger_log`. `message` is what `Logger_String_fromArgumentsList(fmt, args)`
returned (`none` for `NULL`) and `recordOk` whether `Logger_Record_new` could
allocate. The record and the message are deleted before the function returns,
which touches nothing of the state kept here; no field of `self` is assigned. -/
def _Logger_log {W : Type} (ops : HandlerOps W) (message : Option String) (recordOk : Bool)
    (self : Logger_T) (level : Logger_Level_T) (file : String) (line : Nat) (function : String)
    (timestamp : Int) (w : W) : LogResult W :=
  match message with
  | none => { err := LOGGER_ERR_OUT_OF_MEMORY, world := w, offers := [] }
  | some msg =>
    match Logger_Record_new recordOk (Logger_getName self) level file line function
        timestamp msg with
    | none => { err := LOGGER_ERR_OUT_OF_MEMORY, world := w, offers := [] }
    | some record => Logger_logRecord ops self record w

/-! ## logger_handlers.c

The handler object, the stdio streams and the files are the state the callbacks
work on. What the C library and the absent modules return in one call is an
argument of the model of that call. -/

/-- One more than `SIZE_MAX`: `size_t` is taken to be 64 bits wide. -/
def SIZE_MOD : Nat := 2 ^ 64

/-- A value of the C type `int` (32 bits), what `fprintf` returns. -/
structure CInt where
  val : Int
  lo : -2147483648 ≤ val
  hi : val ≤ 2147483647

/-- The `int` with the given non-negative value, capped at `INT_MAX`. -/
def CInt.ofNat (n : Nat) : CInt :=
  { val := ((min n 2147483647 : Nat) : Int), lo := by omega, hi := by omega }

/-- The values the code assigns to `errno`. -/
inductive Errno where
  | EIO
  | ENOMEM
  deriving DecidableEq, Repr

/-- The files, by path: `none` where there is no file, else the bytes written. -/
abbrev Disk := String → Option (List Char)

/-- `struct Logger_Handler_rotatingHandlerContext`. -/
structure Logger_Handler_rotatingHandlerContext where
  BYTES_BEFORE_ROTATION : Nat
  bytesWritten : Nat
  rotationCounter : Nat
  filePath : String
  deriving DecidableEq, Repr

/-- Modelled from the spec: the handler object behind `Logger_Handler_T` (its module is
not part of the sources at hand), with the fields the callbacks reach through
`Logger_Handler_getFile`, `Logger_Handler_getContext`,
`Logger_Handler_getBytesWritten` and `Logger_Handler_setBytesWritten`. `file` is the
stream: `some path` while it is open on `path`, `none` once it is closed. `C` is the
type of the context (`Unit` for the `NULL` context of a stream or file handler). -/
structure Logger_Handler (C : Type) where
  file : Option String
  context : C
  level : Logger_Level_T
  formatter : Nat
  bytesWritten : Nat
  deriving DecidableEq, Repr

/-- Modelled from the spec: the buffer descriptor `Logger_Buffer_T`, `{size, content}`. -/
structure Logger_Buffer_T where
  size : Nat
  content : List Char
  deriving DecidableEq, Repr

/-- The state a publish callback works on: its handler, the files and the last
value the code assigned to `errno` (`none`: no assignment yet). -/
structure World (C : Type) where
  handler : Logger_Handler C
  disk : Disk
  errno : Option Errno

/-- What the library calls made during one publish call return: whether
`sdscatprintf` produced the path, whether `freopen` succeeded, the value of
`fprintf`, how many bytes had reached the file when `fprintf` reported an error
(read only when the value of `fprintf` is negative), and whether
`Logger_Buffer_new` produced a buffer. -/
structure Outcomes where
  pathOk : Bool
  reopenOk : Bool
  written : CInt
  reached : Nat
  bufferOk : Bool

/-- The C string stored in a byte sequence: the bytes before the first NUL. -/
def cstring (bytes : List Char) : List Char :=
  bytes.takeWhile (fun c => c ≠ '\x00')

/-- Whether `strcmp(a, b) != 0`. -/
def strcmp_ne (a b : List Char) : Bool :=
  decide (cstring a ≠ cstring b)

/-- The bytes at `content + n`, where `content` is stored with its terminator. Past
the terminator the model reads nothing. -/
def advance (content : List Char) (n : Nat) : List Char :=
  (content ++ ['\x00']).drop n

/-- Modelled from the C library: the bytes of `content` that reach the file in a
call `fprintf(file, "%s", content)` that returns `ret`. A non-negative `ret` is the
number of bytes transmitted. A negative `ret` reports an error, before which the
first `reached` bytes, possibly none, had gone out. -/
def transmitted (content : List Char) (ret : Int) (reached : Nat) : List Char :=
  if 0 ≤ ret then content.take ret.toNat else content.take reached

/-- Modelled from the C library: the effect of `fprintf(file, "%s", content)` that
returns `ret`. The bytes transmitted are appended to the file the stream is open
on; a closed stream leaves the files as they are. -/
def fprintf_effect (file : Option String) (content : List Char) (ret : Int) (reached : Nat)
    (disk : Disk) : Disk :=
  match file with
  | none => disk
  | some path =>
    fun p => if p = path then some ((disk p).getD [] ++ transmitted content ret reached)
      else disk p

/-- Modelled from the spec: `Logger_Buffer_new(size, content)`, a buffer descriptor
`{size, content}`, or `NULL` when its allocation fails. -/
def Logger_Buffer_new (mallocOk : Bool) (size : Nat) (content : List Char) :
    Option Logger_Buffer_T :=
  if mallocOk then some { size := size, content := content } else none

/-- `Logger_Handler_streamHandlerPublishCallback`. -/
def Logger_Handler_streamHandlerPublishCallback {C : Type} (o : Outcomes) (w : World C)
    (content : List Char) : Option Logger_Buffer_T × World C :=
  let file := w.handler.file
  let ret : Int := o.written.val
  let disk := fprintf_effect file content ret o.reached w.disk
  let errno1 := if ret < 0 then some Errno.EIO else w.errno
  let bytes_written : Int := if ret < 0 then 0 else ret
  let errno2 :=
    if strcmp_ne ['\x00'] (advance content bytes_written.toNat) then some Errno.EIO else errno1
  let handler := { w.handler with
    bytesWritten := (w.handler.bytesWritten + bytes_written.toNat) % SIZE_MOD }
  (Logger_Buffer_new o.bufferOk (bytes_written.toNat % SIZE_MOD) content,
    { handler := handler, disk := disk, errno := errno2 })

/-- The path `sdscatprintf(sdsempty(), "%s.%zu", filePath, rotationCounter)` builds. -/
def realFilePath (filePath : String) (rotationCounter : Nat) : String :=
  filePath ++ "." ++ Nat.repr rotationCounter

/-- Modelled from the C library: a successful `fopen(path, "w")` or
`freopen(path, "w", file)` creates the file or truncates it to zero length. -/
def truncate (disk : Disk) (path : String) : Disk :=
  fun p => if p = path then some [] else disk p

/-- The second half of `Logger_Handler_rotatingHandlerPublishCallback`: the write is
delegated to the stream callback, and the byte count of the context is updated
from the buffer it returns. -/
def Logger_Handler_rotatingHandlerPublishCallback.write (o : Outcomes)
    (w : World Logger_Handler_rotatingHandlerContext) (content : List Char) :
    Option Logger_Buffer_T × World Logger_Handler_rotatingHandlerContext :=
  let r := Logger_Handler_streamHandlerPublishCallback o w content
  match r.1 with
  | none => (none, { r.2 with errno := some Errno.ENOMEM })
  | some buffer =>
    let context := r.2.handler.context
    (some buffer, { r.2 with
      handler := { r.2.handler with
        context := { context with
          bytesWritten := (context.bytesWritten + buffer.size) % SIZE_MOD } } })

/-- `Logger_Handler_rotatingHandlerPublishCallback`. A failing `freopen` has closed
the stream; a successful one leaves it open on the new path. -/
def Logger_Handler_rotatingHandlerPublishCallback (o : Outcomes)
    (w : World Logger_Handler_rotatingHandlerContext) (content : List Char) :
    Option Logger_Buffer_T × World Logger_Handler_rotatingHandlerContext :=
  let context := w.handler.context
  if context.bytesWritten ≥ context.BYTES_BEFORE_ROTATION then
    let context1 := { context with rotationCounter := (context.rotationCounter + 1) % SIZE_MOD }
    let w1 := { w with handler := { w.handler with context := context1 } }
    if !o.pathOk then
      (none, { w1 with errno := some Errno.ENOMEM })
    else
      let path := realFilePath context1.filePath context1.rotationCounter
      if !o.reopenOk then
        (none, { w1 with handler := { w1.handler with file := none } })
      else
        let w2 := { w1 with
          handler := { w1.handler with file := some path,
                                       context := { context1 with bytesWritten := 0 } },
          disk := truncate w1.disk path }
        Logger_Handler_rotatingHandlerPublishCallback.write o w2 content
  else
    Logger_Handler_rotatingHandlerPublishCallback.write o w content

/-- What `Logger_Handler_newRotatingHandler` meets: whether `sdscatprintf` produced
the path, whether `fopen` opened it, whether `malloc` returned the context and
whether `Logger_Handler_new` returned a handler. -/
structure NewOutcomes where
  pathOk : Bool
  openOk : Bool
  contextOk : Bool
  handlerOk : Bool

/-- What a call of `Logger_Handler_newRotatingHandler` leaves: the handler (`none`
for `NULL`), the files, the value assigned to `errno` if any, and what the call
acquired and did not release before it returned: the stream still open
(`some path`) and the context still allocated. -/
structure NewResult where
  handler : Option (Logger_Handler Logger_Handler_rotatingHandlerContext)
  disk : Disk
  errno : Option Errno
  openStream : Option String
  liveContext : Option Logger_Handler_rotatingHandlerContext

/-- Modelled from the spec: `Logger_Handler_new` (its module is not part of the
sources at hand) allocates the handler with the destination, context, level and
formatter it is given and no byte written yet, or returns `NULL`. The two callbacks
it stores are the ones named in the constructor that calls it. -/
def Logger_Handler_new {C : Type} (mallocOk : Bool) (file : Option String) (context : C)
    (level : Logger_Level_T) (formatter : Nat) : Option (Logger_Handler C) :=
  if mallocOk then
    some { file := file, context := context, level := level, formatter := formatter,
           bytesWritten := 0 }
  else none

/-- `Logger_Handler_newRotatingHandler`. -/
def Logger_Handler_newRotatingHandler (o : NewOutcomes) (disk : Disk) (filePath : String)
    (level : Logger_Level_T) (formatter : Nat) (bytesBeforeRotation : Nat) : NewResult :=
  let rotationCounter := 0
  if !o.pathOk then
    { handler := none, disk := disk, errno := some Errno.ENOMEM, openStream := none,
      liveContext := none }
  else
    let path := realFilePath filePath rotationCounter
    if !o.openOk then
      { handler := none, disk := disk, errno := none, openStream := none, liveContext := none }
    else
      let disk1 := truncate disk path
      if !o.contextOk then
        { handler := none, disk := disk1, errno := some Errno.ENOMEM, openStream := some path,
          liveContext := none }
      else
        let context : Logger_Handler_rotatingHandlerContext :=
          { filePath := filePath, bytesWritten := 0, rotationCounter := rotationCounter,
            BYTES_BEFORE_ROTATION := bytesBeforeRotation }
        { handler := Logger_Handler_new o.handlerOk (some path) context level formatter,
          disk := disk1, errno := none, openStream := some path, liveContext := some context }

/-- A publish call and what it met: the library outcomes and the rendered text. -/
abbrev Call := Outcomes × List Char

/-- Whether the publish call succeeds when it starts in `w`: it returns a buffer. -/
def Call.succeeds (c : Call) (w : World Logger_Handler_rotatingHandlerContext) : Bool :=
  (Logger_Handler_rotatingHandlerPublishCallback c.1 w c.2).1.isSome

/-- The state after the rotating publish callback ran once for each call, in order. -/
def publishAll (w : World Logger_Handler_rotatingHandlerContext) :
    List Call → World Logger_Handler_rotatingHandlerContext
  | [] => w
  | c :: rest => publishAll (Logger_Handler_rotatingHandlerPublishCallback c.1 w c.2).2 rest

/-- Whether each call of the sequence succeeds, started in `w`. -/
def allSucceed (w : World Logger_Handler_rotatingHandlerContext) : List Call → Bool
  | [] => true
  | c :: rest =>
    c.succeeds w && allSucceed (Logger_Handler_rotatingHandlerPublishCallback c.1 w c.2).2 rest

/-- The state a handler that came out of the constructor starts in. -/
def NewResult.worldOf (r : NewResult) (h : Logger_Handler Logger_Handler_rotatingHandlerContext) :
    World Logger_Handler_rotatingHandlerContext :=
  { handler := h, disk := r.disk, errno := r.errno }

/-- Whether the step from `w` to `w'` was a rotation: the counter moved on and the
stream is open on the path with the new counter as its suffix. -/
def Rotated (w w' : World Logger_Handler_rotatingHandlerContext) : Prop :=
  w'.handler.context.rotationCounter = (w.handler.context.rotationCounter + 1) % SIZE_MOD ∧
  w'.handler.file = some (realFilePath w.handler.context.filePath
    w'.handler.context.rotationCounter)

/-- Whether the step from `w` to `w'` left counter and stream alone. -/
def NotRotated (w w' : World Logger_Handler_rotatingHandlerContext) : Prop :=
  w'.handler.context.rotationCounter = w.handler.context.rotationCounter ∧
  w'.handler.file = w.handler.file

/-- The size of the buffer a publish call returned, `0` if it returned none. -/
def reported (r : Option Logger_Buffer_T) : Nat :=
  match r with
  | some buffer => buffer.size
  | none => 0

/-- The bytes reported written since the last rotation, counted from the calls
alone: `g` so far, then call by call the reported size is added, starting again
from the size of its own write at each call that moved the rotation counter. The
sum is a plain natural number and never wraps. -/
def bytesSinceRotation :
    World Logger_Handler_rotatingHandlerContext → Nat → List Call → Nat
  | _, g, [] => g
  | w, g, c :: rest =>
    let r := Logger_Handler_rotatingHandlerPublishCallback c.1 w c.2
    let n := reported r.1
    let g' :=
      if r.2.handler.context.rotationCounter = w.handler.context.rotationCounter then g + n
      else n
    bytesSinceRotation r.2 g' rest

/-- The outcomes of a call in which every library call succeeds and `fprintf`
returns `n`. -/
def Outcomes.ok (n : Nat) : Outcomes :=
  { pathOk := true, reopenOk := true, written := CInt.ofNat n, reached := 0, bufferOk := true }

/-- The outcomes of a successful construction. -/
def NewOutcomes.ok : NewOutcomes :=
  { pathOk := true, openOk := true, contextOk := true, handlerOk := true }

/-- The rotating handler of the scenario: base path `log`, threshold 10 bytes, as
the constructor leaves it on an empty disk. -/
def sampleRotating : World Logger_Handler_rotatingHandlerContext :=
  { handler :=
      { file := some "log.0",
        context := { BYTES_BEFORE_ROTATION := 10, bytesWritten := 0, rotationCounter := 0,
                     filePath := "log" },
        level := LOGGER_LEVEL_DEBUG, formatter := 1, bytesWritten := 0 },
    disk := truncate (fun _ => none) "log.0",
    errno := none }

/-- The value of a decimal digit character. -/
def digitValue (c : Char) : Nat :=
  c.toNat - 48

/-- The number a string of decimal digits stands for, most significant digit first. -/
def decimalValue (ds : List Char) : Nat :=
  ds.foldl (fun acc c => 10 * acc + digitValue c) 0

/-- The rotating handler with base path `log` and threshold 0, as the constructor
leaves it on an empty disk. -/
def sampleRotatingZero : World Logger_Handler_rotatingHandlerContext :=
  { handler :=
      { file := some "log.0",
        context := { BYTES_BEFORE_ROTATION := 0, bytesWritten := 0, rotationCounter := 0,
                     filePath := "log" },
        level := LOGGER_LEVEL_DEBUG, formatter := 1, bytesWritten := 0 },
    disk := truncate (fun _ => none) "log.0",
    errno := none }

/-- The outcomes of a call in which `fprintf` returns `-1` after 5 bytes had gone
out, and every other library call succeeds. -/
def Outcomes.writeError : Outcomes :=
  { pathOk := true, reopenOk := true,
    written := { val := -1, lo := by decide, hi := by decide }, reached := 5,
    bufferOk := true }

/-- The outcomes of a call in which `sdscatprintf` returns `NULL`. -/
def Outcomes.pathFails : Outcomes :=
  { pathOk := false, reopenOk := true, written := CInt.ofNat 0, reached := 0, bufferOk := true }

/-- The outcomes of a call in which `freopen` returns `NULL`. -/
def Outcomes.reopenFails : Outcomes :=
  { pathOk := true, reopenOk := false, written := CInt.ofNat 0, reached := 0, bufferOk := true }

/-- The scenario handler after its first write of 12 bytes: the count, 12, has
reached the threshold, 10, and the stream is still on `log.0`. -/
def sampleRotatingDue : World Logger_Handler_rotatingHandlerContext :=
  (Logger_Handler_rotatingHandlerPublishCallback (Outcomes.ok 12) sampleRotating
    "hello world\n".toList).2

/-- The bytes the stream callback counts for a write result: `max(ret, 0)`. -/
def counted (o : Outcomes) : Nat :=
  (max o.written.val 0).toNat

/-- The state after the stream publish callback ran once for each call, in order. -/
def streamAll {C : Type} (w : World C) : List Call → World C
  | [] => w
  | c :: rest => streamAll (Logger_Handler_streamHandlerPublishCallback c.1 w c.2).2 rest

/-- The sum of the counted bytes of the calls. -/
def countedSum (calls : List Call) : Nat :=
  (calls.map (fun c => counted c.1)).sum

/-- The outcomes of a call in which `fprintf` transmits `n` bytes and the buffer
descriptor cannot be allocated. -/
def Outcomes.bufferFails (n : Nat) : Outcomes :=
  { pathOk := true, reopenOk := true, written := CInt.ofNat n, reached := 0, bufferOk := false }

/-- A stream handler on the sink `out`, nothing written yet. -/
def sampleStream : World Unit :=
  { handler := { file := some "out", context := (), level := LOGGER_LEVEL_DEBUG,
                 formatter := 1, bytesWritten := 0 },
    disk := truncate (fun _ => none) "out",
    errno := none }

/-- The outcomes of a construction in which `malloc` returns no context. -/
def NewOutcomes.contextFails : NewOutcomes :=
  { pathOk := true, openOk := true, contextOk := false, handlerOk := true }

/-- The outcomes of a construction in which `Logger_Handler_new` returns `NULL`. -/
def NewOutcomes.handlerFails : NewOutcomes :=
  { pathOk := true, openOk := true, contextOk := true, handlerOk := false }

/-! # Properties -/

/-! ## Dispatch: the loop of `Logger_logRecord` -/

theorem Logger_logRecord.loop_acc {W : Type} (ops : HandlerOps W) (record : Logger_Record_T)
    (base : Logger_HandlersList_T) (err : Logger_Err_T) (w : W) (acc : List (Offer W)) :
    Logger_logRecord.loop ops record base err w acc =
      { err := (Logger_logRecord.loop ops record base err w []).err,
        world := (Logger_logRecord.loop ops record base err w []).world,
        offers := acc ++ (Logger_logRecord.loop ops record base err w []).offers } := by
  induction base generalizing err w acc with
  | nil => simp [Logger_logRecord.loop]
  | cons h next ih =>
    simp only [Logger_logRecord.loop]
    split
    · split
      · simp
      · rw [ih, ih _ _ ([] ++ _)]
        simp
    · rw [ih, ih _ _ ([] ++ _)]
      simp

/-- What the loop does from any node on, entered with `err = LOGGER_ERR_OK`. -/
theorem Logger_logRecord.loop_spec {W : Type} (ops : HandlerOps W) (record : Logger_Record_T)
    (base : Logger_HandlersList_T) (w : W) :
    ((Logger_logRecord.loop ops record base LOGGER_ERR_OK w []).offers.map Offer.handler =
        base.take (Logger_logRecord.loop ops record base LOGGER_ERR_OK w []).offers.length) ∧
    Threaded ops record w (Logger_logRecord.loop ops record base LOGGER_ERR_OK w []).offers
      (Logger_logRecord.loop ops record base LOGGER_ERR_OK w []).world ∧
    (∀ o ∈ (Logger_logRecord.loop ops record base LOGGER_ERR_OK w []).offers,
      o.result = if ops.isLoggable o.before o.handler record
        then some (ops.publish o.before o.handler record).1 else none) ∧
    (∀ o ∈ (Logger_logRecord.loop ops record base LOGGER_ERR_OK w []).offers.dropLast,
      o.failed = false) ∧
    ((∃ o, (Logger_logRecord.loop ops record base LOGGER_ERR_OK w []).offers.getLast? = some o ∧
        o.failed = true ∧
        o.result = some (Logger_logRecord.loop ops record base LOGGER_ERR_OK w []).err ∧
        (Logger_logRecord.loop ops record base LOGGER_ERR_OK w []).err ≠ LOGGER_ERR_OK) ∨
      ((Logger_logRecord.loop ops record base LOGGER_ERR_OK w []).offers.length = base.length ∧
        (∀ o ∈ (Logger_logRecord.loop ops record base LOGGER_ERR_OK w []).offers,
          o.failed = false) ∧
        (Logger_logRecord.loop ops record base LOGGER_ERR_OK w []).err = LOGGER_ERR_OK)) := by
  induction base generalizing w with
  | nil => simp [Logger_logRecord.loop, Threaded]
  | cons h next ih =>
    by_cases hl : ops.isLoggable w h record = true
    · by_cases hok : LOGGER_ERR_OK = (ops.publish w h record).1
      · have hstep : Logger_logRecord.loop ops record (h :: next) LOGGER_ERR_OK w [] =
            { err := (Logger_logRecord.loop ops record next LOGGER_ERR_OK
                  (ops.publish w h record).2 []).err,
              world := (Logger_logRecord.loop ops record next LOGGER_ERR_OK
                  (ops.publish w h record).2 []).world,
              offers := { handler := h, before := w, result := some LOGGER_ERR_OK } ::
                (Logger_logRecord.loop ops record next LOGGER_ERR_OK
                  (ops.publish w h record).2 []).offers } := by
          rw [Logger_logRecord.loop, if_pos hl]
          simp only [← hok, ne_eq, not_true_eq_false, if_false]
          rw [Logger_logRecord.loop_acc]
          simp
        obtain ⟨i1, i2, i3, i4, i5⟩ := ih (ops.publish w h record).2
        rw [hstep]
        refine ⟨?_, ?_, ?_, ?_, ?_⟩
        · simp [i1]
        · simpa [Threaded, Offer.after] using i2
        · intro o ho
          rcases List.mem_cons.mp ho with rfl | ho
          · simp [hl, ← hok]
          · exact i3 o ho
        · intro o ho
          cases hrest : (Logger_logRecord.loop ops record next LOGGER_ERR_OK
              (ops.publish w h record).2 []).offers with
          | nil => simp [hrest] at ho
          | cons a rest =>
            rw [hrest, List.dropLast_cons₂] at ho
            rcases List.mem_cons.mp ho with rfl | ho
            · simp [Offer.failed]
            · exact i4 o (by rw [hrest]; exact ho)
        · rcases i5 with ⟨o, h1, h2, h3, h4⟩ | ⟨h1, h2, h3⟩
          · left
            refine ⟨o, ?_, h2, h3, h4⟩
            simp [List.getLast?_cons, h1]
          · right
            refine ⟨by simp [h1], ?_, h3⟩
            intro o ho
            rcases List.mem_cons.mp ho with rfl | ho
            · simp [Offer.failed]
            · exact h2 o ho
      · have hstep : Logger_logRecord.loop ops record (h :: next) LOGGER_ERR_OK w [] =
            { err := (ops.publish w h record).1, world := (ops.publish w h record).2,
              offers := [{ handler := h, before := w,
                           result := some (ops.publish w h record).1 }] } := by
          rw [Logger_logRecord.loop, if_pos hl]
          simp [hok]
        rw [hstep]
        refine ⟨by simp, by simp [Threaded, Offer.after], ?_, by simp, ?_⟩
        · intro o ho
          simp only [List.mem_singleton] at ho
          subst ho
          simp [hl]
        · left
          refine ⟨{ handler := h, before := w, result := some (ops.publish w h record).1 },
            rfl, ?_, rfl, Ne.symm hok⟩
          simp only [Offer.failed, ne_eq, decide_eq_true_eq]
          exact Ne.symm hok
    · have hstep : Logger_logRecord.loop ops record (h :: next) LOGGER_ERR_OK w [] =
          { err := (Logger_logRecord.loop ops record next LOGGER_ERR_OK w []).err,
            world := (Logger_logRecord.loop ops record next LOGGER_ERR_OK w []).world,
            offers := { handler := h, before := w, result := none } ::
              (Logger_logRecord.loop ops record next LOGGER_ERR_OK w []).offers } := by
        rw [Logger_logRecord.loop, if_neg hl, Logger_logRecord.loop_acc]
        simp
      obtain ⟨i1, i2, i3, i4, i5⟩ := ih w
      rw [hstep]
      refine ⟨?_, ?_, ?_, ?_, ?_⟩
      · simp [i1]
      · simpa [Threaded, Offer.after] using i2
      · intro o ho
        rcases List.mem_cons.mp ho with rfl | ho
        · simp [hl]
        · exact i3 o ho
      · intro o ho
        cases hrest : (Logger_logRecord.loop ops record next LOGGER_ERR_OK w []).offers with
        | nil => simp [hrest] at ho
        | cons a rest =>
          rw [hrest, List.dropLast_cons₂] at ho
          rcases List.mem_cons.mp ho with rfl | ho
          · simp [Offer.failed]
          · exact i4 o (by rw [hrest]; exact ho)
      · rcases i5 with ⟨o, h1, h2, h3, h4⟩ | ⟨h1, h2, h3⟩
        · left
          refine ⟨o, ?_, h2, h3, h4⟩
          simp [List.getLast?_cons, h1]
        · right
          refine ⟨by simp [h1], ?_, h3⟩
          intro o ho
          rcases List.mem_cons.mp ho with rfl | ho
          · simp [Offer.failed]
          · exact h2 o ho

/-- On an accepted record `Logger_logRecord` is its loop, entered at the head of the
chain with `err = LOGGER_ERR_OK`. -/
theorem Logger_logRecord_of_accept {W : Type} (ops : HandlerOps W) (self : Logger_T)
    (record : Logger_Record_T) (w : W)
    (haccept : Logger_isLoggable self (Logger_Record_getLevel record) = true) :
    Logger_logRecord ops self record w =
      Logger_logRecord.loop ops record self.handlers LOGGER_ERR_OK w [] := by
  rw [Logger_logRecord, if_pos haccept]

theorem Logger_logRecord_offers_of_accept {W : Type} (ops : HandlerOps W) (self : Logger_T)
    (record : Logger_Record_T) (w : W)
    (haccept : Logger_isLoggable self (Logger_Record_getLevel record) = true) :
    ((Logger_logRecord ops self record w).offers.map Offer.handler =
        self.handlers.take (Logger_logRecord ops self record w).offers.length) ∧
    ((Logger_logRecord ops self record w).err = LOGGER_ERR_OK →
      (Logger_logRecord ops self record w).offers.map Offer.handler = self.handlers) ∧
    (self.handlers ≠ [] → 1 ≤ (Logger_logRecord ops self record w).offers.length) := by
  rw [Logger_logRecord_of_accept ops self record w haccept]
  obtain ⟨i1, -, -, -, i5⟩ := Logger_logRecord.loop_spec ops record self.handlers w
  refine ⟨i1, ?_, ?_⟩
  · intro hok
    rcases i5 with ⟨o, -, -, -, h4⟩ | ⟨h1, -, -⟩
    · exact absurd hok h4
    · rw [i1, h1, List.take_length]
  · intro hne
    rcases i5 with ⟨o, h1, -, -, -⟩ | ⟨h1, -, -⟩
    · cases hoff : (Logger_logRecord.loop ops record self.handlers LOGGER_ERR_OK w []).offers with
      | nil => simp [hoff] at h1
      | cons a rest => simp
    · rw [h1]
      exact List.length_pos.mpr hne

/-- C1. `Logger_logRecord` is fail-fast. For a record the logger accepts, the loop
takes the nodes of the chain in chain order, each turn starting in the state the
turn before left; in each turn `publish` is invoked exactly when the handler is
loggable; no turn but the last ended in a failure. Either the last turn failed,
its error is the value returned and the handlers after it were never reached, or
the loop went through the whole chain (possibly empty, possibly with no loggable
handler), no `publish` failed and the result is `LOGGER_ERR_OK`. -/
theorem Logger_logRecord_fail_fast {W : Type} (ops : HandlerOps W) (self : Logger_T)
    (record : Logger_Record_T) (w : W)
    (haccept : Logger_isLoggable self (Logger_Record_getLevel record) = true) :
    ((Logger_logRecord ops self record w).offers.map Offer.handler =
        self.handlers.take (Logger_logRecord ops self record w).offers.length) ∧
    Threaded ops record w (Logger_logRecord ops self record w).offers
      (Logger_logRecord ops self record w).world ∧
    (∀ o ∈ (Logger_logRecord ops self record w).offers,
      o.result = if ops.isLoggable o.before o.handler record
        then some (ops.publish o.before o.handler record).1 else none) ∧
    (∀ o ∈ (Logger_logRecord ops self record w).offers.dropLast, o.failed = false) ∧
    ((∃ o, (Logger_logRecord ops self record w).offers.getLast? = some o ∧
        o.failed = true ∧
        o.result = some (Logger_logRecord ops self record w).err ∧
        (Logger_logRecord ops self record w).err ≠ LOGGER_ERR_OK) ∨
      ((Logger_logRecord ops self record w).offers.length = self.handlers.length ∧
        (∀ o ∈ (Logger_logRecord ops self record w).offers, o.failed = false) ∧
        (Logger_logRecord ops self record w).err = LOGGER_ERR_OK)) := by
  rw [Logger_logRecord_of_accept ops self record w haccept]
  exact Logger_logRecord.loop_spec ops record self.handlers w

/-- C1 at work: the chain `3, 2, 1` with handler `2` failing. Handler `3` and then
handler `2` are published to, handler `1` is not, and the error of `2` comes back. -/
theorem Logger_logRecord_fail_fast_witness :
    Logger_isLoggable (sampleLogger LOGGER_LEVEL_INFO [3, 2, 1])
        (Logger_Record_getLevel (sampleRecord LOGGER_LEVEL_ERROR)) = true ∧
    (Logger_logRecord (sampleOps [2] []) (sampleLogger LOGGER_LEVEL_INFO [3, 2, 1])
        (sampleRecord LOGGER_LEVEL_ERROR) []).invoked = [3, 2] ∧
    (Logger_logRecord (sampleOps [2] []) (sampleLogger LOGGER_LEVEL_INFO [3, 2, 1])
        (sampleRecord LOGGER_LEVEL_ERROR) []).err = LOGGER_ERR_OTHER 1 ∧
    ((Logger_logRecord (sampleOps [2] []) (sampleLogger LOGGER_LEVEL_INFO [3, 2, 1])
        (sampleRecord LOGGER_LEVEL_ERROR) []).offers.map Offer.handler =
      [3, 2, 1].take (Logger_logRecord (sampleOps [2] []) (sampleLogger LOGGER_LEVEL_INFO [3, 2, 1])
        (sampleRecord LOGGER_LEVEL_ERROR) []).offers.length) :=
  ⟨by decide, by decide, by decide,
    (Logger_logRecord_fail_fast (sampleOps [2] []) (sampleLogger LOGGER_LEVEL_INFO [3, 2, 1])
      (sampleRecord LOGGER_LEVEL_ERROR) [] (by decide)).1⟩

/-! ## The chain: add, remove, pop -/

theorem addHandlers_eq (self : Logger_T) (hs : List Logger_Handler_T) :
    addHandlers self hs = { self with handlers := hs.reverse ++ self.handlers } := by
  induction hs generalizing self with
  | nil => simp [addHandlers]
  | cons h rest ih =>
    have hstep : addHandlers self (h :: rest) =
        addHandlers (Logger_addHandler true self h).2 rest := by
      simp [addHandlers]
    rw [hstep, ih]
    simp [Logger_addHandler, Logger_HandlersList_new]

theorem Logger_logRecord_offers_take {W : Type} (ops : HandlerOps W) (self : Logger_T)
    (record : Logger_Record_T) (w : W) :
    (Logger_logRecord ops self record w).offers.map Offer.handler =
      self.handlers.take (Logger_logRecord ops self record w).offers.length := by
  by_cases haccept : Logger_isLoggable self (Logger_Record_getLevel record) = true
  · exact (Logger_logRecord_offers_of_accept ops self record w haccept).1
  · simp [Logger_logRecord, haccept]

theorem LogResult.invoked_subset {W : Type} (r : LogResult W) (h : Logger_Handler_T)
    (hin : h ∈ r.invoked) : h ∈ r.offers.map Offer.handler := by
  simp only [LogResult.invoked, List.mem_map, List.mem_filter] at hin ⊢
  obtain ⟨o, ⟨ho, -⟩, rfl⟩ := hin
  exact ⟨o, ho, rfl⟩

theorem Logger_logRecord_offers_mem {W : Type} (ops : HandlerOps W) (self : Logger_T)
    (record : Logger_Record_T) (w : W) (h : Logger_Handler_T)
    (hin : h ∈ (Logger_logRecord ops self record w).offers.map Offer.handler) :
    h ∈ self.handlers := by
  rw [Logger_logRecord_offers_take] at hin
  exact List.mem_of_mem_take hin

theorem Logger_removeHandler.loop_eq (handler : Logger_Handler_T)
    (visited base : Logger_HandlersList_T) :
    Logger_removeHandler.loop handler visited base =
      (if handler ∈ base then some handler else none, visited ++ base.erase handler) := by
  induction base generalizing visited with
  | nil => simp [Logger_removeHandler.loop]
  | cons h next ih =>
    by_cases hh : h = handler
    · subst hh
      simp [Logger_removeHandler.loop]
    · have hh2 : ¬ handler = h := fun e => hh e.symm
      rw [Logger_removeHandler.loop, if_neg hh, ih]
      simp [List.erase_cons, hh, hh2]

theorem Logger_removeHandler_eq (self : Logger_T) (handler : Logger_Handler_T) :
    Logger_removeHandler self handler =
      (if handler ∈ self.handlers then some handler else none,
        { self with handlers := self.handlers.erase handler }) := by
  simp [Logger_removeHandler, Logger_removeHandler.loop_eq]

theorem Logger_popHandlers_chain (self : Logger_T) (k : Nat) :
    popHandlers (self.handlers.length + k) self =
      (self.handlers.map some ++ List.replicate k none, { self with handlers := [] }) := by
  obtain ⟨name, level, chain⟩ := self
  induction chain with
  | nil =>
    induction k with
    | zero => simp [popHandlers]
    | succ k ih =>
      simp only [List.length_nil, Nat.zero_add, List.map_nil, List.nil_append] at ih ⊢
      rw [popHandlers]
      simp only [Logger_popHandler]
      rw [ih]
      simp [List.replicate_succ]
  | cons h next ih =>
    have hlen : (h :: next).length + k = (next.length + k) + 1 := by
      simp only [List.length_cons]; omega
    simp only [hlen]
    rw [popHandlers]
    simp only [Logger_popHandler]
    rw [ih]
    simp

/-- C2. The chain is a LIFO of the additions. When `A` and then `B` are added (both
calls returning the handler), the chain is `B, A` followed by the old chain, and the
turns of a dispatch follow exactly that sequence: `B` is offered first whenever the
record is accepted, `A` second. In general, after adding `hs` in order the chain is
`hs` reversed in front of the old chain, every dispatch takes its turns along that
sequence, and a dispatch that returns `LOGGER_ERR_OK` for an accepted record went
through all of it. -/
theorem Logger_addHandler_lifo {W : Type} (ops : HandlerOps W) (self : Logger_T)
    (okA okB : Bool) (A B : Logger_Handler_T) (hs : List Logger_Handler_T)
    (record : Logger_Record_T) (w : W)
    (hA : (Logger_addHandler okA self A).1 = some A)
    (hB : (Logger_addHandler okB (Logger_addHandler okA self A).2 B).1 = some B) :
    ((Logger_addHandler okB (Logger_addHandler okA self A).2 B).2.handlers =
        B :: A :: self.handlers) ∧
    ((Logger_logRecord ops (Logger_addHandler okB (Logger_addHandler okA self A).2 B).2
        record w).offers.map Offer.handler =
      (B :: A :: self.handlers).take (Logger_logRecord ops
        (Logger_addHandler okB (Logger_addHandler okA self A).2 B).2 record w).offers.length) ∧
    (Logger_isLoggable self (Logger_Record_getLevel record) = true →
      1 ≤ (Logger_logRecord ops (Logger_addHandler okB (Logger_addHandler okA self A).2 B).2
        record w).offers.length) ∧
    ((addHandlers self hs).handlers = hs.reverse ++ self.handlers) ∧
    ((Logger_logRecord ops (addHandlers self hs) record w).offers.map Offer.handler =
      (hs.reverse ++ self.handlers).take
        (Logger_logRecord ops (addHandlers self hs) record w).offers.length) ∧
    (Logger_isLoggable self (Logger_Record_getLevel record) = true →
      (Logger_logRecord ops (addHandlers self hs) record w).err = LOGGER_ERR_OK →
      (Logger_logRecord ops (addHandlers self hs) record w).offers.map Offer.handler =
        hs.reverse ++ self.handlers) := by
  have hokA : okA = true := by
    cases okA
    · simp [Logger_addHandler, Logger_HandlersList_new] at hA
    · rfl
  have hokB : okB = true := by
    cases okB
    · simp [Logger_addHandler, Logger_HandlersList_new] at hB
    · rfl
  subst hokA hokB
  have hchain : (Logger_addHandler true (Logger_addHandler true self A).2 B).2.handlers =
      B :: A :: self.handlers := by
    simp [Logger_addHandler, Logger_HandlersList_new]
  have hlevel : (Logger_addHandler true (Logger_addHandler true self A).2 B).2.level =
      self.level := by
    simp [Logger_addHandler, Logger_HandlersList_new]
  refine ⟨hchain, ?_, ?_, ?_, ?_, ?_⟩
  · rw [← hchain]
    exact Logger_logRecord_offers_take ops _ record w
  · intro haccept
    have haccept2 : Logger_isLoggable (Logger_addHandler true (Logger_addHandler true self A).2 B).2
        (Logger_Record_getLevel record) = true := by
      simpa [Logger_isLoggable, hlevel] using haccept
    exact (Logger_logRecord_offers_of_accept ops _ record w haccept2).2.2 (by simp [hchain])
  · rw [addHandlers_eq]
  · have := Logger_logRecord_offers_take ops (addHandlers self hs) record w
    rw [addHandlers_eq] at this ⊢
    exact this
  · intro haccept hok
    rw [addHandlers_eq] at hok ⊢
    have haccept2 : Logger_isLoggable { self with handlers := hs.reverse ++ self.handlers }
        (Logger_Record_getLevel record) = true := by
      simpa [Logger_isLoggable] using haccept
    exact (Logger_logRecord_offers_of_accept ops _ record w haccept2).2.1 hok

/-- C2 at work: `1` then `2` added to an empty logger; the dispatch publishes to `2`
and then to `1`. -/
theorem Logger_addHandler_lifo_witness :
    (Logger_addHandler true (sampleLogger LOGGER_LEVEL_DEBUG []) 1).1 = some 1 ∧
    (Logger_addHandler true (Logger_addHandler true (sampleLogger LOGGER_LEVEL_DEBUG []) 1).2 2).1
      = some 2 ∧
    (Logger_logRecord (sampleOps [] [])
      (Logger_addHandler true (Logger_addHandler true (sampleLogger LOGGER_LEVEL_DEBUG []) 1).2 2).2
      (sampleRecord LOGGER_LEVEL_INFO) []).invoked = [2, 1] ∧
    (Logger_addHandler true (Logger_addHandler true (sampleLogger LOGGER_LEVEL_DEBUG []) 1).2
      2).2.handlers = [2, 1] :=
  ⟨by decide, by decide, by decide,
    (Logger_addHandler_lifo (sampleOps [] []) (sampleLogger LOGGER_LEVEL_DEBUG []) true true 1 2 []
      (sampleRecord LOGGER_LEVEL_INFO) [] (by decide) (by decide)).1⟩

/-- C3. `Logger_isLoggable` is `level >= self->level`, and `Logger_logRecord`
follows it. A record strictly below the threshold reaches no handler: no turn is
taken, the state is untouched and the result is `LOGGER_ERR_OK`. A record at exactly
the threshold is loggable and goes to the chain: the call is the dispatch loop over
the whole chain, whose first turn offers the record to the head handler. -/
theorem Logger_isLoggable_threshold {W : Type} (ops : HandlerOps W) (self : Logger_T)
    (level : Logger_Level_T) (record : Logger_Record_T) (w : W) :
    (Logger_isLoggable self level = true ↔ level.toNat ≥ self.level.toNat) ∧
    ((Logger_Record_getLevel record).toNat < self.level.toNat →
      (Logger_logRecord ops self record w).offers = [] ∧
      (Logger_logRecord ops self record w).invoked = [] ∧
      (Logger_logRecord ops self record w).world = w ∧
      (Logger_logRecord ops self record w).err = LOGGER_ERR_OK) ∧
    (Logger_Record_getLevel record = self.level →
      Logger_isLoggable self (Logger_Record_getLevel record) = true ∧
      Logger_logRecord ops self record w =
        Logger_logRecord.loop ops record self.handlers LOGGER_ERR_OK w [] ∧
      ((Logger_logRecord ops self record w).offers.map Offer.handler).head? =
        self.handlers.head?) := by
  refine ⟨by simp [Logger_isLoggable], ?_, ?_⟩
  · intro hlt
    have hno : Logger_isLoggable self (Logger_Record_getLevel record) = false := by
      simp only [Logger_isLoggable, ge_iff_le, decide_eq_false_iff_not, not_le]
      exact hlt
    simp [Logger_logRecord, hno, LogResult.invoked]
  · intro heq
    have hyes : Logger_isLoggable self (Logger_Record_getLevel record) = true := by
      simp [Logger_isLoggable, heq]
    refine ⟨hyes, Logger_logRecord_of_accept ops self record w hyes, ?_⟩
    obtain ⟨h1, -, h3⟩ := Logger_logRecord_offers_of_accept ops self record w hyes
    cases hch : self.handlers with
    | nil =>
      rw [hch] at h1
      simp [h1]
    | cons a rest =>
      have hpos := h3 (by simp [hch])
      rw [h1, hch]
      cases hlen : (Logger_logRecord ops self record w).offers.length with
      | zero => omega
      | succ n => simp

/-- C3 at work: a logger at `WARNING` with chain `2, 1`. An `INFO` record reaches no
handler; a `WARNING` record is published to both. -/
theorem Logger_isLoggable_threshold_witness :
    (Logger_Record_getLevel (sampleRecord LOGGER_LEVEL_INFO)).toNat <
      (sampleLogger LOGGER_LEVEL_WARNING [2, 1]).level.toNat ∧
    (Logger_logRecord (sampleOps [] []) (sampleLogger LOGGER_LEVEL_WARNING [2, 1])
      (sampleRecord LOGGER_LEVEL_INFO) []).offers = [] ∧
    (Logger_logRecord (sampleOps [] []) (sampleLogger LOGGER_LEVEL_WARNING [2, 1])
      (sampleRecord LOGGER_LEVEL_WARNING) []).invoked = [2, 1] :=
  ⟨by decide,
    ((Logger_isLoggable_threshold (sampleOps [] []) (sampleLogger LOGGER_LEVEL_WARNING [2, 1])
      LOGGER_LEVEL_INFO (sampleRecord LOGGER_LEVEL_INFO) []).2.1 (by decide)).1,
    by decide⟩

/-- C4 as stated fails at `L1 = L2`: a logger at threshold `INFO` publishes an `INFO`
record to its handler. -/
theorem Logger_logRecord_at_threshold_invokes :
    LOGGER_LEVEL_INFO.toNat ≤ LOGGER_LEVEL_INFO.toNat ∧
    (Logger_logRecord (sampleOps [] []) (sampleLogger LOGGER_LEVEL_INFO [1])
      (sampleRecord LOGGER_LEVEL_INFO) []).invoked = [1] :=
  ⟨by decide, by decide⟩

/-- C4, amended. For all levels `L1 < L2`, a logger at threshold `L2` never invokes
any handler for a record at level `L1`: whatever the chain and the handlers, the
dispatch takes no turn, publishes to no handler, leaves the state as it was and
returns `LOGGER_ERR_OK`. -/
theorem Logger_logRecord_below_threshold {W : Type} (ops : HandlerOps W) (self : Logger_T)
    (record : Logger_Record_T) (w : W) (L1 L2 : Logger_Level_T)
    (hrec : Logger_Record_getLevel record = L1) (hself : self.level = L2)
    (hlt : L1.toNat < L2.toNat) :
    (Logger_logRecord ops self record w).invoked = [] ∧
    (Logger_logRecord ops self record w).offers = [] ∧
    (Logger_logRecord ops self record w).world = w ∧
    (Logger_logRecord ops self record w).err = LOGGER_ERR_OK := by
  subst hrec hself
  have hno : Logger_isLoggable self (Logger_Record_getLevel record) = false := by
    simp only [Logger_isLoggable, ge_iff_le, decide_eq_false_iff_not, not_le]
    exact hlt
  simp [Logger_logRecord, hno, LogResult.invoked]

/-- C4, amended, at work: threshold `ERROR`, record at `WARNING`. -/
theorem Logger_logRecord_below_threshold_witness :
    LOGGER_LEVEL_WARNING.toNat < LOGGER_LEVEL_ERROR.toNat ∧
    (Logger_logRecord (sampleOps [] []) (sampleLogger LOGGER_LEVEL_ERROR [2, 1])
      (sampleRecord LOGGER_LEVEL_WARNING) []).invoked = [] :=
  ⟨by decide,
    (Logger_logRecord_below_threshold (sampleOps [] []) (sampleLogger LOGGER_LEVEL_ERROR [2, 1])
      (sampleRecord LOGGER_LEVEL_WARNING) [] LOGGER_LEVEL_WARNING LOGGER_LEVEL_ERROR
      rfl rfl (by decide)).1⟩

/-- C5 as stated fails for a handler added twice: `Logger_removeHandler` unlinks one
node only, and the dispatch that follows still publishes to the handler. -/
theorem Logger_removeHandler_leaves_second_node :
    (Logger_removeHandler (addHandlers (sampleLogger LOGGER_LEVEL_DEBUG []) [7, 7]) 7).1
      = some 7 ∧
    (Logger_logRecord (sampleOps [] [])
      (Logger_removeHandler (addHandlers (sampleLogger LOGGER_LEVEL_DEBUG []) [7, 7]) 7).2
      (sampleRecord LOGGER_LEVEL_INFO) []).invoked = [7] :=
  ⟨by decide, by decide⟩

/-- C5, amended. For every logger whose chain holds the handler `h`,
`Logger_removeHandler(h)` returns `h`; and when `h` is in the chain exactly once, a
`Logger_logRecord` that follows neither offers a record to `h` nor invokes it,
whatever the record and the handlers do. -/
theorem Logger_removeHandler_then_logRecord {W : Type} (ops : HandlerOps W) (self : Logger_T)
    (h : Logger_Handler_T) (record : Logger_Record_T) (w : W)
    (hadded : h ∈ self.handlers) :
    (Logger_removeHandler self h).1 = some h ∧
    (self.handlers.count h = 1 →
      h ∉ (Logger_logRecord ops (Logger_removeHandler self h).2 record w).offers.map
        Offer.handler ∧
      h ∉ (Logger_logRecord ops (Logger_removeHandler self h).2 record w).invoked) := by
  rw [Logger_removeHandler_eq]
  refine ⟨by simp [hadded], ?_⟩
  intro hone
  have hgone : h ∉ self.handlers.erase h := by
    rw [← List.count_eq_zero, List.count_erase_self, hone]
  have hoff : h ∉ (Logger_logRecord ops { self with handlers := self.handlers.erase h }
      record w).offers.map Offer.handler :=
    fun hin => hgone (Logger_logRecord_offers_mem ops _ record w h hin)
  exact ⟨hoff, fun hin => hoff (LogResult.invoked_subset _ h hin)⟩

/-- C5, amended, at work: chain `3, 2, 1`, handler `2` removed. -/
theorem Logger_removeHandler_then_logRecord_witness :
    2 ∈ (sampleLogger LOGGER_LEVEL_DEBUG [3, 2, 1]).handlers ∧
    (Logger_removeHandler (sampleLogger LOGGER_LEVEL_DEBUG [3, 2, 1]) 2).1 = some 2 ∧
    (Logger_logRecord (sampleOps [] [])
      (Logger_removeHandler (sampleLogger LOGGER_LEVEL_DEBUG [3, 2, 1]) 2).2
      (sampleRecord LOGGER_LEVEL_INFO) []).invoked = [3, 1] :=
  ⟨by decide,
    (Logger_removeHandler_then_logRecord (sampleOps [] []) (sampleLogger LOGGER_LEVEL_DEBUG [3, 2, 1])
      2 (sampleRecord LOGGER_LEVEL_INFO) [] (by decide)).1,
    by decide⟩

/-- C6. `Logger_removeHandler(h)` leaves the chain with the first occurrence of `h`
erased, name and level untouched. If a node holds `h` it returns `h`, and the chain
was `pre ++ h :: post` with `h` not in `pre` and is `pre ++ post` afterwards; if no
node holds `h` it returns `NULL` and the logger is unchanged. -/
theorem Logger_removeHandler_erase (self : Logger_T) (h : Logger_Handler_T) :
    (Logger_removeHandler self h).2 = { self with handlers := self.handlers.erase h } ∧
    (h ∈ self.handlers →
      (Logger_removeHandler self h).1 = some h ∧
      ∃ pre post, self.handlers = pre ++ h :: post ∧ h ∉ pre ∧
        (Logger_removeHandler self h).2.handlers = pre ++ post) ∧
    (h ∉ self.handlers →
      (Logger_removeHandler self h).1 = none ∧ (Logger_removeHandler self h).2 = self) := by
  rw [Logger_removeHandler_eq]
  refine ⟨rfl, ?_, ?_⟩
  · intro hin
    refine ⟨by simp [hin], ?_⟩
    obtain ⟨pre, post, hnot, hsplit, herase⟩ := List.exists_erase_eq hin
    exact ⟨pre, post, hsplit, hnot, herase⟩
  · intro hnot
    refine ⟨by simp [hnot], ?_⟩
    simp [List.erase_of_not_mem hnot]

/-- C6 at work: chain `3, 2, 1, 2`, handler `2` removed, then handler `9`. -/
theorem Logger_removeHandler_erase_witness :
    2 ∈ (sampleLogger LOGGER_LEVEL_DEBUG [3, 2, 1, 2]).handlers ∧
    (Logger_removeHandler (sampleLogger LOGGER_LEVEL_DEBUG [3, 2, 1, 2]) 2).1 = some 2 ∧
    (Logger_removeHandler (sampleLogger LOGGER_LEVEL_DEBUG [3, 2, 1, 2]) 2).2.handlers
      = [3, 1, 2] ∧
    (Logger_removeHandler (sampleLogger LOGGER_LEVEL_DEBUG [3, 2, 1, 2]) 9).1 = none :=
  ⟨by decide,
    ((Logger_removeHandler_erase (sampleLogger LOGGER_LEVEL_DEBUG [3, 2, 1, 2]) 2).2.1
      (by decide)).1,
    by decide, by decide⟩

/-- C7. Repeated `Logger_popHandler` drains the chain in reverse order of addition.
After `H1 .. Hn` are added in that order to a logger with an empty chain, `n + k`
pops in a row return `Hn, .., H1` and then `NULL` `k` times, and leave the chain
empty with name and level as they were. -/
theorem Logger_popHandler_drains (self : Logger_T) (hs : List Logger_Handler_T) (k : Nat)
    (hempty : self.handlers = []) :
    popHandlers (hs.length + k) (addHandlers self hs) =
      (hs.reverse.map some ++ List.replicate k none, self) := by
  have hlen : hs.length = (addHandlers self hs).handlers.length := by
    rw [addHandlers_eq]
    simp [hempty]
  rw [hlen, Logger_popHandlers_chain, addHandlers_eq]
  obtain ⟨name, level, chain⟩ := self
  simp only at hempty
  subst hempty
  simp

/-- C7 at work: `1, 2, 3` added in that order; four pops yield `3`, `2`, `1`, `NULL`. -/
theorem Logger_popHandler_drains_witness :
    (sampleLogger LOGGER_LEVEL_DEBUG []).handlers = [] ∧
    popHandlers 4 (addHandlers (sampleLogger LOGGER_LEVEL_DEBUG []) [1, 2, 3]) =
      ([some 3, some 2, some 1, none], sampleLogger LOGGER_LEVEL_DEBUG []) :=
  ⟨rfl, Logger_popHandler_drains (sampleLogger LOGGER_LEVEL_DEBUG []) [1, 2, 3] 1 rfl⟩

/-! ## The rotating handler -/

theorem SIZE_MOD_eq : SIZE_MOD = 18446744073709551616 := by
  norm_num [SIZE_MOD]

/-- The stream callback when `fprintf` returns `n >= 0` and the buffer is allocated. -/
theorem Logger_Handler_streamHandlerPublishCallback_ok {C : Type} (o : Outcomes) (w : World C)
    (content : List Char) (n : Nat) (hbuf : o.bufferOk = true) (hn : o.written.val = (n : Int)) :
    Logger_Handler_streamHandlerPublishCallback o w content =
      (some { size := n, content := content },
        { handler := { w.handler with bytesWritten := (w.handler.bytesWritten + n) % SIZE_MOD },
          disk := fprintf_effect w.handler.file content n o.reached w.disk,
          errno := if strcmp_ne ['\x00'] (advance content n) then some Errno.EIO else w.errno }) := by
  have hhi := o.written.hi
  have hsmall : n % SIZE_MOD = n := by
    rw [SIZE_MOD_eq]
    omega
  have hneg : ¬ ((n : Int) < 0) := by omega
  simp [Logger_Handler_streamHandlerPublishCallback, hn, hbuf, Logger_Buffer_new, hsmall, hneg]

/-- The write half of the rotating callback under the same conditions. -/
theorem Logger_Handler_rotatingHandlerPublishCallback.write_ok (o : Outcomes)
    (w : World Logger_Handler_rotatingHandlerContext) (content : List Char) (n : Nat)
    (hbuf : o.bufferOk = true) (hn : o.written.val = (n : Int)) :
    Logger_Handler_rotatingHandlerPublishCallback.write o w content =
      (some { size := n, content := content },
        { handler := { w.handler with
            bytesWritten := (w.handler.bytesWritten + n) % SIZE_MOD,
            context := { w.handler.context with
              bytesWritten := (w.handler.context.bytesWritten + n) % SIZE_MOD } },
          disk := fprintf_effect w.handler.file content n o.reached w.disk,
          errno := if strcmp_ne ['\x00'] (advance content n) then some Errno.EIO else w.errno }) := by
  simp [Logger_Handler_rotatingHandlerPublishCallback.write,
    Logger_Handler_streamHandlerPublishCallback_ok o w content n hbuf hn]

/-- A successful call that starts at or past the threshold. -/
theorem Logger_Handler_rotatingHandlerPublishCallback_rotating (o : Outcomes)
    (w : World Logger_Handler_rotatingHandlerContext) (content : List Char) (n : Nat)
    (hpath : o.pathOk = true) (hreopen : o.reopenOk = true) (hbuf : o.bufferOk = true)
    (hn : o.written.val = (n : Int))
    (hge : w.handler.context.bytesWritten ≥ w.handler.context.BYTES_BEFORE_ROTATION) :
    Logger_Handler_rotatingHandlerPublishCallback o w content =
      (some { size := n, content := content },
        { handler := { w.handler with
            file := some (realFilePath w.handler.context.filePath
              ((w.handler.context.rotationCounter + 1) % SIZE_MOD)),
            bytesWritten := (w.handler.bytesWritten + n) % SIZE_MOD,
            context := { w.handler.context with
              rotationCounter := (w.handler.context.rotationCounter + 1) % SIZE_MOD,
              bytesWritten := n } },
          disk := fprintf_effect
            (some (realFilePath w.handler.context.filePath
              ((w.handler.context.rotationCounter + 1) % SIZE_MOD))) content n o.reached
            (truncate w.disk (realFilePath w.handler.context.filePath
              ((w.handler.context.rotationCounter + 1) % SIZE_MOD))),
          errno := if strcmp_ne ['\x00'] (advance content n) then some Errno.EIO else w.errno }) := by
  have hhi := o.written.hi
  have hsmall : n % SIZE_MOD = n := by
    rw [SIZE_MOD_eq]
    omega
  rw [Logger_Handler_rotatingHandlerPublishCallback]
  simp only [hge, hpath, hreopen, if_true, Bool.not_true, Bool.false_eq_true, if_false]
  rw [Logger_Handler_rotatingHandlerPublishCallback.write_ok o _ content n hbuf hn]
  simp [hsmall]

/-- A successful call that starts below the threshold. -/
theorem Logger_Handler_rotatingHandlerPublishCallback_plain (o : Outcomes)
    (w : World Logger_Handler_rotatingHandlerContext) (content : List Char) (n : Nat)
    (hbuf : o.bufferOk = true) (hn : o.written.val = (n : Int))
    (hlt : w.handler.context.bytesWritten < w.handler.context.BYTES_BEFORE_ROTATION) :
    Logger_Handler_rotatingHandlerPublishCallback o w content =
      (some { size := n, content := content },
        { handler := { w.handler with
            bytesWritten := (w.handler.bytesWritten + n) % SIZE_MOD,
            context := { w.handler.context with
              bytesWritten := (w.handler.context.bytesWritten + n) % SIZE_MOD } },
          disk := fprintf_effect w.handler.file content n o.reached w.disk,
          errno := if strcmp_ne ['\x00'] (advance content n) then some Errno.EIO else w.errno }) := by
  rw [Logger_Handler_rotatingHandlerPublishCallback]
  have hnot : ¬ (w.handler.context.bytesWritten ≥ w.handler.context.BYTES_BEFORE_ROTATION) := by
    omega
  simp only [hnot, if_false]
  exact Logger_Handler_rotatingHandlerPublishCallback.write_ok o w content n hbuf hn

theorem CInt.toNat_mod (c : CInt) : c.val.toNat % SIZE_MOD = c.val.toNat := by
  have hhi := c.hi
  rw [SIZE_MOD_eq]
  omega

/-- What a successful rotating publish call does, whatever `fprintf` returned: it
reports `max(ret, 0)` bytes, keeps threshold and base path, and rotates exactly when
it started at or past the threshold. -/
theorem Logger_Handler_rotatingHandlerPublishCallback_of_succeeds (c : Call)
    (w : World Logger_Handler_rotatingHandlerContext) (hs : c.succeeds w = true) :
    reported (Logger_Handler_rotatingHandlerPublishCallback c.1 w c.2).1 = c.1.written.val.toNat ∧
    (Logger_Handler_rotatingHandlerPublishCallback c.1 w c.2).2.handler.context.BYTES_BEFORE_ROTATION
      = w.handler.context.BYTES_BEFORE_ROTATION ∧
    (Logger_Handler_rotatingHandlerPublishCallback c.1 w c.2).2.handler.context.filePath
      = w.handler.context.filePath ∧
    (w.handler.context.BYTES_BEFORE_ROTATION ≤ w.handler.context.bytesWritten →
      Rotated w (Logger_Handler_rotatingHandlerPublishCallback c.1 w c.2).2 ∧
      (Logger_Handler_rotatingHandlerPublishCallback c.1 w c.2).2.handler.context.bytesWritten
        = c.1.written.val.toNat) ∧
    (w.handler.context.bytesWritten < w.handler.context.BYTES_BEFORE_ROTATION →
      NotRotated w (Logger_Handler_rotatingHandlerPublishCallback c.1 w c.2).2 ∧
      (Logger_Handler_rotatingHandlerPublishCallback c.1 w c.2).2.handler.context.bytesWritten
        = (w.handler.context.bytesWritten + c.1.written.val.toNat) % SIZE_MOD) := by
  obtain ⟨o, content⟩ := c
  have hmod := CInt.toNat_mod o.written
  simp only [Call.succeeds] at hs
  simp only
  by_cases hge : w.handler.context.bytesWritten ≥ w.handler.context.BYTES_BEFORE_ROTATION
  · have hnlt : ¬ (w.handler.context.bytesWritten < w.handler.context.BYTES_BEFORE_ROTATION) := by
      omega
    cases hp : o.pathOk with
    | false =>
      simp [Logger_Handler_rotatingHandlerPublishCallback, hge, hp] at hs
    | true =>
      cases hr : o.reopenOk with
      | false =>
        simp [Logger_Handler_rotatingHandlerPublishCallback, hge, hp, hr] at hs
      | true =>
        cases hb : o.bufferOk with
        | false =>
          simp [Logger_Handler_rotatingHandlerPublishCallback,
            Logger_Handler_rotatingHandlerPublishCallback.write,
            Logger_Handler_streamHandlerPublishCallback, Logger_Buffer_new, hge, hp, hr, hb] at hs
        | true =>
          by_cases hneg : o.written.val < 0
          · have hz : o.written.val.toNat = 0 := by omega
            simp [Logger_Handler_rotatingHandlerPublishCallback,
              Logger_Handler_rotatingHandlerPublishCallback.write,
              Logger_Handler_streamHandlerPublishCallback, Logger_Buffer_new, hge, hp, hr, hb,
              hneg, hz, reported, Rotated, hnlt]
          · simp [Logger_Handler_rotatingHandlerPublishCallback,
              Logger_Handler_rotatingHandlerPublishCallback.write,
              Logger_Handler_streamHandlerPublishCallback, Logger_Buffer_new, hge, hp, hr, hb,
              hneg, hmod, reported, Rotated, hnlt]
  · have hlt : w.handler.context.bytesWritten < w.handler.context.BYTES_BEFORE_ROTATION := by
      omega
    have hnle : ¬ (w.handler.context.BYTES_BEFORE_ROTATION ≤ w.handler.context.bytesWritten) := by
      omega
    cases hb : o.bufferOk with
    | false =>
      simp [Logger_Handler_rotatingHandlerPublishCallback,
        Logger_Handler_rotatingHandlerPublishCallback.write,
        Logger_Handler_streamHandlerPublishCallback, Logger_Buffer_new, hge, hb] at hs
    | true =>
      by_cases hneg : o.written.val < 0
      · have hz : o.written.val.toNat = 0 := by omega
        simp [Logger_Handler_rotatingHandlerPublishCallback,
          Logger_Handler_rotatingHandlerPublishCallback.write,
          Logger_Handler_streamHandlerPublishCallback, Logger_Buffer_new, hb,
          hneg, hz, reported, NotRotated, hlt, hnle]
      · simp [Logger_Handler_rotatingHandlerPublishCallback,
          Logger_Handler_rotatingHandlerPublishCallback.write,
          Logger_Handler_streamHandlerPublishCallback, Logger_Buffer_new, hb,
          hneg, hmod, reported, NotRotated, hlt, hnle]

/-- C8. One rotating publish step in which path synthesis, reopen and the write
succeed and `fprintf` reports `n` bytes returns the buffer `{n, content}`. If
`bytesWritten >= BYTES_BEFORE_ROTATION` held before the call, then `rotationCounter`
is the old value plus 1 (in `size_t`, that is modulo `2 ^ 64`; exactly the old value
plus 1 below `SIZE_MAX`), the stream is open on `filePath.<new rotationCounter>`,
and `bytesWritten` is `n`. Otherwise `rotationCounter` and the open file are
unchanged and `bytesWritten` is the old value plus `n` (in `size_t`; exactly the sum
when it does not pass `SIZE_MAX`). -/
theorem Logger_Handler_rotatingHandlerPublishCallback_step (o : Outcomes)
    (w : World Logger_Handler_rotatingHandlerContext) (content : List Char) (n : Nat)
    (hpath : o.pathOk = true) (hreopen : o.reopenOk = true) (hbuf : o.bufferOk = true)
    (hn : o.written.val = (n : Int)) :
    (Logger_Handler_rotatingHandlerPublishCallback o w content).1 =
      some { size := n, content := content } ∧
    (w.handler.context.bytesWritten ≥ w.handler.context.BYTES_BEFORE_ROTATION →
      (Logger_Handler_rotatingHandlerPublishCallback o w content).2.handler.context.rotationCounter
        = (w.handler.context.rotationCounter + 1) % SIZE_MOD ∧
      (w.handler.context.rotationCounter + 1 < SIZE_MOD →
        (Logger_Handler_rotatingHandlerPublishCallback o w content).2.handler.context.rotationCounter
          = w.handler.context.rotationCounter + 1) ∧
      (Logger_Handler_rotatingHandlerPublishCallback o w content).2.handler.file =
        some (realFilePath w.handler.context.filePath
          (Logger_Handler_rotatingHandlerPublishCallback o w
            content).2.handler.context.rotationCounter) ∧
      (Logger_Handler_rotatingHandlerPublishCallback o w content).2.handler.context.bytesWritten
        = n) ∧
    (w.handler.context.bytesWritten < w.handler.context.BYTES_BEFORE_ROTATION →
      (Logger_Handler_rotatingHandlerPublishCallback o w content).2.handler.context.rotationCounter
        = w.handler.context.rotationCounter ∧
      (Logger_Handler_rotatingHandlerPublishCallback o w content).2.handler.file =
        w.handler.file ∧
      (Logger_Handler_rotatingHandlerPublishCallback o w content).2.handler.context.bytesWritten
        = (w.handler.context.bytesWritten + n) % SIZE_MOD ∧
      (w.handler.context.bytesWritten + n < SIZE_MOD →
        (Logger_Handler_rotatingHandlerPublishCallback o w content).2.handler.context.bytesWritten
          = w.handler.context.bytesWritten + n)) := by
  refine ⟨?_, ?_, ?_⟩
  · by_cases hge : w.handler.context.bytesWritten ≥ w.handler.context.BYTES_BEFORE_ROTATION
    · rw [Logger_Handler_rotatingHandlerPublishCallback_rotating o w content n hpath hreopen
        hbuf hn hge]
    · rw [Logger_Handler_rotatingHandlerPublishCallback_plain o w content n hbuf hn
        (by omega)]
  · intro hge
    rw [Logger_Handler_rotatingHandlerPublishCallback_rotating o w content n hpath hreopen
      hbuf hn hge]
    refine ⟨rfl, ?_, rfl, rfl⟩
    intro hsmall
    exact Nat.mod_eq_of_lt hsmall
  · intro hlt
    rw [Logger_Handler_rotatingHandlerPublishCallback_plain o w content n hbuf hn hlt]
    refine ⟨rfl, rfl, rfl, ?_⟩
    intro hsmall
    exact Nat.mod_eq_of_lt hsmall

/-- C8 at work, the scenario of the spec: threshold 10, base path `log`. The
constructor opens `log.0`. A first write of 12 bytes goes to `log.0` and leaves the
count at 12; the second write finds `12 >= 10`, rotates to `log.1` first and leaves
the count at its own 7 bytes. -/
theorem Logger_Handler_rotatingHandlerPublishCallback_step_witness :
    (Logger_Handler_newRotatingHandler NewOutcomes.ok (fun _ => none) "log"
      LOGGER_LEVEL_DEBUG 1 10).handler = some sampleRotating.handler ∧
    (Logger_Handler_rotatingHandlerPublishCallback (Outcomes.ok 12) sampleRotating
      "hello world\n".toList).2.handler.file = some "log.0" ∧
    (Logger_Handler_rotatingHandlerPublishCallback (Outcomes.ok 12) sampleRotating
      "hello world\n".toList).2.disk "log.0" = some "hello world\n".toList ∧
    (Logger_Handler_rotatingHandlerPublishCallback (Outcomes.ok 12) sampleRotating
      "hello world\n".toList).2.handler.context.bytesWritten = 12 ∧
    (Logger_Handler_rotatingHandlerPublishCallback (Outcomes.ok 7)
      (Logger_Handler_rotatingHandlerPublishCallback (Outcomes.ok 12) sampleRotating
        "hello world\n".toList).2 "second\n".toList).2.handler.file = some "log.1" ∧
    (Logger_Handler_rotatingHandlerPublishCallback (Outcomes.ok 7)
      (Logger_Handler_rotatingHandlerPublishCallback (Outcomes.ok 12) sampleRotating
        "hello world\n".toList).2 "second\n".toList).2.handler.context.bytesWritten = 7 :=
  ⟨by decide, by decide, by decide, by decide, by decide,
    ((Logger_Handler_rotatingHandlerPublishCallback_step (Outcomes.ok 7)
      (Logger_Handler_rotatingHandlerPublishCallback (Outcomes.ok 12) sampleRotating
        "hello world\n".toList).2 "second\n".toList 7 rfl rfl rfl (by decide)).2.1
      (by decide)).2.2.2⟩

/-- C9 as stated fails in the scenario of the spec itself: threshold 10, base path
`log`. The first record, 12 bytes, is the one whose write takes the count from below
the threshold to past it, and it is written to the old file `log.0`, the last record
there; the new file `log.1` starts with the record published next. -/
theorem rotating_crossing_record_in_old_file :
    sampleRotating.handler.context.bytesWritten
      < sampleRotating.handler.context.BYTES_BEFORE_ROTATION ∧
    sampleRotating.handler.context.BYTES_BEFORE_ROTATION
      ≤ sampleRotating.handler.context.bytesWritten + "hello world\n".toList.length ∧
    allSucceed sampleRotating
      [(Outcomes.ok 12, "hello world\n".toList), (Outcomes.ok 7, "second\n".toList)] = true ∧
    (publishAll sampleRotating
      [(Outcomes.ok 12, "hello world\n".toList), (Outcomes.ok 7, "second\n".toList)]).disk "log.0"
      = some "hello world\n".toList ∧
    (publishAll sampleRotating
      [(Outcomes.ok 12, "hello world\n".toList), (Outcomes.ok 7, "second\n".toList)]).disk "log.1"
      = some "second\n".toList :=
  ⟨by decide, by decide, by decide, by decide, by decide⟩

/-- C9, amended. Rotation is checked before the current record is written, never
after. Take a successful publish that starts below the threshold while the stream is
on the file `p`, and whose write takes the byte count to or past the threshold: it
does not rotate, and its bytes are appended to `p`, the old file. The successful publish
that follows rotates first, its bytes are the first ones of the new file, and the
old file (when its path is not the new one) gets nothing more, so the record that
crossed the threshold is the last one written to the old file and the next record
is the first one written to the new file. -/
theorem rotation_checked_before_write (o1 o2 : Outcomes)
    (w : World Logger_Handler_rotatingHandlerContext) (content1 content2 : List Char)
    (n1 n2 : Nat) (p : String)
    (hfile : w.handler.file = some p)
    (hbuf1 : o1.bufferOk = true) (hn1 : o1.written.val = (n1 : Int))
    (hpath2 : o2.pathOk = true) (hreopen2 : o2.reopenOk = true) (hbuf2 : o2.bufferOk = true)
    (hn2 : o2.written.val = (n2 : Int))
    (hbelow : w.handler.context.bytesWritten < w.handler.context.BYTES_BEFORE_ROTATION)
    (hcross : w.handler.context.BYTES_BEFORE_ROTATION
      ≤ (w.handler.context.bytesWritten + n1) % SIZE_MOD) :
    NotRotated w (Logger_Handler_rotatingHandlerPublishCallback o1 w content1).2 ∧
    (Logger_Handler_rotatingHandlerPublishCallback o1 w content1).2.disk p =
      some ((w.disk p).getD [] ++ content1.take n1) ∧
    Rotated (Logger_Handler_rotatingHandlerPublishCallback o1 w content1).2
      (Logger_Handler_rotatingHandlerPublishCallback o2
        (Logger_Handler_rotatingHandlerPublishCallback o1 w content1).2 content2).2 ∧
    (Logger_Handler_rotatingHandlerPublishCallback o2
        (Logger_Handler_rotatingHandlerPublishCallback o1 w content1).2 content2).2.disk
      (realFilePath w.handler.context.filePath
        ((w.handler.context.rotationCounter + 1) % SIZE_MOD)) = some (content2.take n2) ∧
    (realFilePath w.handler.context.filePath
        ((w.handler.context.rotationCounter + 1) % SIZE_MOD) ≠ p →
      (Logger_Handler_rotatingHandlerPublishCallback o2
        (Logger_Handler_rotatingHandlerPublishCallback o1 w content1).2 content2).2.disk p =
      (Logger_Handler_rotatingHandlerPublishCallback o1 w content1).2.disk p) := by
  have e1 := Logger_Handler_rotatingHandlerPublishCallback_plain o1 w content1 n1 hbuf1 hn1 hbelow
  have e2 := Logger_Handler_rotatingHandlerPublishCallback_rotating o2
    (Logger_Handler_rotatingHandlerPublishCallback o1 w content1).2 content2 n2 hpath2 hreopen2
    hbuf2 hn2 (by rw [e1]; exact hcross)
  rw [e2, e1]
  refine ⟨⟨rfl, rfl⟩, ?_, ⟨rfl, rfl⟩, ?_, ?_⟩
  · simp [fprintf_effect, transmitted, hfile]
  · simp [fprintf_effect, transmitted, truncate]
  · intro hne
    have hne2 : ¬ p = realFilePath w.handler.context.filePath
        ((w.handler.context.rotationCounter + 1) % SIZE_MOD) := fun e => hne e.symm
    simp [fprintf_effect, transmitted, truncate, hfile, hne2]

/-- C9, amended, at work on the scenario: the 12-byte record stays in `log.0`, the
next call rotates and `log.1` holds the next record. -/
theorem rotation_checked_before_write_witness :
    sampleRotating.handler.file = some "log.0" ∧
    sampleRotating.handler.context.bytesWritten
      < sampleRotating.handler.context.BYTES_BEFORE_ROTATION ∧
    sampleRotating.handler.context.BYTES_BEFORE_ROTATION
      ≤ (sampleRotating.handler.context.bytesWritten + 12) % SIZE_MOD ∧
    NotRotated sampleRotating
      (Logger_Handler_rotatingHandlerPublishCallback (Outcomes.ok 12) sampleRotating
        "hello world\n".toList).2 :=
  ⟨rfl, by decide, by decide,
    (rotation_checked_before_write (Outcomes.ok 12) (Outcomes.ok 7) sampleRotating
      "hello world\n".toList "second\n".toList 12 7 "log.0" rfl rfl (by decide) rfl rfl rfl
      (by decide) (by decide) (by decide)).1⟩

theorem succ_mod_SIZE_MOD_ne (n : Nat) : (n + 1) % SIZE_MOD ≠ n := by
  rw [SIZE_MOD_eq]
  omega

theorem Rotated.not_notRotated {w w' : World Logger_Handler_rotatingHandlerContext}
    (h : Rotated w w') : ¬ NotRotated w w' := by
  intro hn
  have := succ_mod_SIZE_MOD_ne w.handler.context.rotationCounter
  rw [← h.1, hn.1] at this
  exact this rfl

/-- Along a run of successful calls that starts with the context count equal to `g`
modulo `2 ^ 64`: before every call the count of the context is the number of bytes
reported since the last rotation, modulo `2 ^ 64`, and the call rotates exactly when
that count has reached the threshold. -/
theorem publishAll_run (calls : List Call) (w : World Logger_Handler_rotatingHandlerContext)
    (g T : Nat) (hT : w.handler.context.BYTES_BEFORE_ROTATION = T)
    (hg : w.handler.context.bytesWritten = g % SIZE_MOD)
    (hall : allSucceed w calls = true) (i : Nat) (hi : i < calls.length) :
    (publishAll w (calls.take i)).handler.context.BYTES_BEFORE_ROTATION = T ∧
    (publishAll w (calls.take i)).handler.context.bytesWritten =
      bytesSinceRotation w g (calls.take i) % SIZE_MOD ∧
    (Rotated (publishAll w (calls.take i)) (publishAll w (calls.take (i + 1))) ↔
      T ≤ (publishAll w (calls.take i)).handler.context.bytesWritten) ∧
    (NotRotated (publishAll w (calls.take i)) (publishAll w (calls.take (i + 1))) ↔
      (publishAll w (calls.take i)).handler.context.bytesWritten < T) ∧
    (T + 2147483647 < SIZE_MOD → g ≤ T + 2147483647 →
      bytesSinceRotation w g (calls.take i) ≤ T + 2147483647) := by
  induction calls generalizing w g i with
  | nil => simp at hi
  | cons c rest ih =>
    simp only [allSucceed, Bool.and_eq_true] at hall
    obtain ⟨hc, hrest⟩ := hall
    obtain ⟨s1, s2, -, s4, s5⟩ :=
      Logger_Handler_rotatingHandlerPublishCallback_of_succeeds c w hc
    rw [hT] at s2 s4 s5
    cases i with
    | zero =>
      simp only [List.take_zero, publishAll, bytesSinceRotation, Nat.zero_add, List.take_succ_cons]
      refine ⟨hT, hg, ?_, ?_, fun _ h => h⟩
      · constructor
        · intro hrot
          by_contra hlt
          exact hrot.not_notRotated (s5 (by omega)).1
        · intro hge
          exact (s4 hge).1
      · constructor
        · intro hnot
          by_contra hge
          exact (s4 (by omega)).1.not_notRotated hnot
        · intro hlt
          exact (s5 hlt).1
    | succ i =>
      simp only [List.length_cons, Nat.add_lt_add_iff_right] at hi
      simp only [List.take_succ_cons, publishAll, bytesSinceRotation]
      have hstep : (Logger_Handler_rotatingHandlerPublishCallback c.1 w c.2).2.handler.context.bytesWritten
          = (if (Logger_Handler_rotatingHandlerPublishCallback c.1 w
                c.2).2.handler.context.rotationCounter = w.handler.context.rotationCounter
              then g + reported (Logger_Handler_rotatingHandlerPublishCallback c.1 w c.2).1
              else reported (Logger_Handler_rotatingHandlerPublishCallback c.1 w c.2).1)
            % SIZE_MOD := by
        rw [s1]
        by_cases hge : T ≤ w.handler.context.bytesWritten
        · obtain ⟨hrot, hbw⟩ := s4 hge
          have hne : ¬ (Logger_Handler_rotatingHandlerPublishCallback c.1 w
              c.2).2.handler.context.rotationCounter = w.handler.context.rotationCounter := by
            rw [hrot.1]
            exact succ_mod_SIZE_MOD_ne _
          rw [if_neg hne, hbw, CInt.toNat_mod]
        · obtain ⟨hnot, hbw⟩ := s5 (by omega)
          rw [if_pos hnot.1, hbw, hg, Nat.mod_add_mod]
      obtain ⟨i1, i2, i3, i4, i5⟩ := ih _ _ s2 hstep hrest i hi
      refine ⟨i1, i2, i3, i4, ?_⟩
      intro hsmall hgle
      apply i5 hsmall
      have hhi := c.1.written.hi
      rw [s1]
      by_cases hge : T ≤ w.handler.context.bytesWritten
      · obtain ⟨hrot, -⟩ := s4 hge
        have hne : ¬ (Logger_Handler_rotatingHandlerPublishCallback c.1 w
            c.2).2.handler.context.rotationCounter = w.handler.context.rotationCounter := by
          rw [hrot.1]
          exact succ_mod_SIZE_MOD_ne _
        rw [if_neg hne]
        omega
      · obtain ⟨hnot, -⟩ := s5 (by omega)
        rw [if_pos hnot.1]
        have hgm : g % SIZE_MOD = g := Nat.mod_eq_of_lt (by omega)
        rw [hgm] at hg
        omega

/-- What a successful construction leaves in the context. -/
theorem Logger_Handler_newRotatingHandler_context (o : NewOutcomes) (disk : Disk)
    (filePath : String) (level : Logger_Level_T) (formatter T : Nat)
    (h : Logger_Handler Logger_Handler_rotatingHandlerContext)
    (hnew : (Logger_Handler_newRotatingHandler o disk filePath level formatter T).handler
      = some h) :
    h.context = { BYTES_BEFORE_ROTATION := T, bytesWritten := 0, rotationCounter := 0,
                  filePath := filePath } ∧
    h.file = some (realFilePath filePath 0) ∧ h.bytesWritten = 0 := by
  cases hp : o.pathOk <;> cases ho : o.openOk <;> cases hc : o.contextOk <;>
    cases hh : o.handlerOk <;>
    simp [Logger_Handler_newRotatingHandler, Logger_Handler_new, hp, ho, hc, hh] at hnew
  subst hnew
  simp

/-- C10. Take a rotating handler fresh from its constructor with threshold `T` and
any sequence of successful publish calls. Before each call the byte count of the
context is the number of bytes reported since the last rotation (or since
construction), as a `size_t`, and the call rotates if and only if that count is
`>= T` at the moment the call starts; it leaves counter and file alone if and only
if the count is below `T`. So no call rotates while the count is below `T`, and a
write that takes the count to `T` or more does not rotate itself: the next call
does. Unless `T` is within `INT_MAX` of `SIZE_MAX` the count never wraps, and the
same holds of the plain sum of the reported bytes. -/
theorem rotation_iff_threshold (o : NewOutcomes) (disk : Disk) (filePath : String)
    (level : Logger_Level_T) (formatter T : Nat)
    (h : Logger_Handler Logger_Handler_rotatingHandlerContext)
    (w0 : World Logger_Handler_rotatingHandlerContext)
    (hnew : (Logger_Handler_newRotatingHandler o disk filePath level formatter T).handler
      = some h)
    (hw0 : w0 = (Logger_Handler_newRotatingHandler o disk filePath level formatter T).worldOf h)
    (calls : List Call) (hall : allSucceed w0 calls = true) (i : Nat) (hi : i < calls.length) :
    (publishAll w0 (calls.take i)).handler.context.bytesWritten =
      bytesSinceRotation w0 0 (calls.take i) % SIZE_MOD ∧
    (Rotated (publishAll w0 (calls.take i)) (publishAll w0 (calls.take (i + 1))) ↔
      T ≤ bytesSinceRotation w0 0 (calls.take i) % SIZE_MOD) ∧
    (NotRotated (publishAll w0 (calls.take i)) (publishAll w0 (calls.take (i + 1))) ↔
      bytesSinceRotation w0 0 (calls.take i) % SIZE_MOD < T) ∧
    (T + 2147483647 < SIZE_MOD →
      bytesSinceRotation w0 0 (calls.take i) < SIZE_MOD ∧
      (Rotated (publishAll w0 (calls.take i)) (publishAll w0 (calls.take (i + 1))) ↔
        T ≤ bytesSinceRotation w0 0 (calls.take i)) ∧
      (NotRotated (publishAll w0 (calls.take i)) (publishAll w0 (calls.take (i + 1))) ↔
        bytesSinceRotation w0 0 (calls.take i) < T)) := by
  obtain ⟨hctx, -, -⟩ :=
    Logger_Handler_newRotatingHandler_context o disk filePath level formatter T h hnew
  have hT : w0.handler.context.BYTES_BEFORE_ROTATION = T := by
    rw [hw0]
    simp [NewResult.worldOf, hctx]
  have hg : w0.handler.context.bytesWritten = 0 % SIZE_MOD := by
    rw [hw0]
    simp [NewResult.worldOf, hctx]
  obtain ⟨-, r2, r3, r4, r5⟩ := publishAll_run calls w0 0 T hT hg hall i hi
  rw [r2] at r3 r4
  refine ⟨r2, r3, r4, ?_⟩
  intro hsmall
  have hle := r5 hsmall (by omega)
  have hmod : bytesSinceRotation w0 0 (calls.take i) % SIZE_MOD =
      bytesSinceRotation w0 0 (calls.take i) := Nat.mod_eq_of_lt (by omega)
  rw [hmod] at r3 r4
  exact ⟨by omega, r3, r4⟩

/-- C10 at work: threshold 10. After 9 bytes (`T - 1`) the second call does not
rotate; its one byte takes the count to 10, and it is the third call that rotates. -/
theorem rotation_iff_threshold_witness :
    (Logger_Handler_newRotatingHandler NewOutcomes.ok (fun _ => none) "log"
      LOGGER_LEVEL_DEBUG 1 10).handler = some sampleRotating.handler ∧
    allSucceed sampleRotating
      [(Outcomes.ok 9, "123456789".toList), (Outcomes.ok 1, "x".toList),
        (Outcomes.ok 3, "abc".toList)] = true ∧
    NotRotated
      (publishAll sampleRotating ([(Outcomes.ok 9, "123456789".toList),
        (Outcomes.ok 1, "x".toList), (Outcomes.ok 3, "abc".toList)].take 1))
      (publishAll sampleRotating ([(Outcomes.ok 9, "123456789".toList),
        (Outcomes.ok 1, "x".toList), (Outcomes.ok 3, "abc".toList)].take (1 + 1))) ∧
    Rotated
      (publishAll sampleRotating ([(Outcomes.ok 9, "123456789".toList),
        (Outcomes.ok 1, "x".toList), (Outcomes.ok 3, "abc".toList)].take 2))
      (publishAll sampleRotating ([(Outcomes.ok 9, "123456789".toList),
        (Outcomes.ok 1, "x".toList), (Outcomes.ok 3, "abc".toList)].take (2 + 1))) :=
  ⟨by decide, by decide,
    (rotation_iff_threshold NewOutcomes.ok (fun _ => none) "log" LOGGER_LEVEL_DEBUG 1 10
      sampleRotating.handler sampleRotating (by decide) rfl
      [(Outcomes.ok 9, "123456789".toList), (Outcomes.ok 1, "x".toList),
        (Outcomes.ok 3, "abc".toList)] (by decide) 1 (by decide)).2.2.1.mpr (by decide),
    (rotation_iff_threshold NewOutcomes.ok (fun _ => none) "log" LOGGER_LEVEL_DEBUG 1 10
      sampleRotating.handler sampleRotating (by decide) rfl
      [(Outcomes.ok 9, "123456789".toList), (Outcomes.ok 1, "x".toList),
        (Outcomes.ok 3, "abc".toList)] (by decide) 2 (by decide)).2.1.mpr (by decide)⟩

/-! ## The rotated file names -/

theorem digitValue_digitChar (m : Nat) (hm : m < 10) : digitValue (Nat.digitChar m) = m := by
  interval_cases m <;> rfl

theorem toDigitsCore_append (fuel n : Nat) (ds : List Char) :
    Nat.toDigitsCore 10 fuel n ds = Nat.toDigitsCore 10 fuel n [] ++ ds := by
  induction fuel generalizing n ds with
  | zero => simp [Nat.toDigitsCore]
  | succ f ih =>
    simp only [Nat.toDigitsCore]
    split
    · simp
    · rw [ih (n / 10) (Nat.digitChar (n % 10) :: ds), ih (n / 10) [Nat.digitChar (n % 10)]]
      simp

theorem decimalValue_toDigitsCore (fuel n : Nat) (hfuel : n < fuel) :
    decimalValue (Nat.toDigitsCore 10 fuel n []) = n := by
  induction fuel generalizing n with
  | zero => omega
  | succ f ih =>
    simp only [Nat.toDigitsCore]
    split
    · rename_i hz
      have hlt : n < 10 := by
        by_contra hge
        have : 1 ≤ n / 10 := (Nat.le_div_iff_mul_le (by decide)).mpr (by omega)
        omega
      simp only [decimalValue, List.foldl_cons, List.foldl_nil, Nat.mul_zero, Nat.zero_add]
      rw [digitValue_digitChar _ (Nat.mod_lt _ (by decide)), Nat.mod_eq_of_lt hlt]
    · rename_i hnz
      have hdiv : n / 10 < f := by
        have : n / 10 < n := Nat.div_lt_self (by
          by_contra h0
          have : n = 0 := by omega
          subst this
          simp at hnz) (by decide)
        omega
      rw [toDigitsCore_append]
      have hrec := ih (n / 10) hdiv
      simp only [decimalValue, List.foldl_append, List.foldl_cons, List.foldl_nil] at hrec ⊢
      rw [hrec, digitValue_digitChar _ (Nat.mod_lt _ (by decide))]
      omega

theorem Nat_repr_injective (a b : Nat) (h : Nat.repr a = Nat.repr b) : a = b := by
  have hl : Nat.toDigits 10 a = Nat.toDigits 10 b := by
    have hd := congrArg String.data h
    simpa [Nat.repr, List.asString] using hd
  have ha := decimalValue_toDigitsCore (a + 1) a (by omega)
  have hb := decimalValue_toDigitsCore (b + 1) b (by omega)
  simp only [Nat.toDigits] at hl
  rw [hl] at ha
  omega

/-- Different counters give different file names. -/
theorem realFilePath_injective (filePath : String) (a b : Nat)
    (h : realFilePath filePath a = realFilePath filePath b) : a = b := by
  apply Nat_repr_injective
  have hd := congrArg String.data h
  simp only [realFilePath, String.data_append, List.append_cancel_left_eq] at hd
  exact String.ext hd

/-! ## Threshold zero -/

/-- The files after a successful call that started at or past the threshold: the
new file holds the bytes that went out in the write, every other file is as
before. -/
theorem Logger_Handler_rotatingHandlerPublishCallback_rotate_disk (c : Call)
    (w : World Logger_Handler_rotatingHandlerContext) (hs : c.succeeds w = true)
    (hge : w.handler.context.BYTES_BEFORE_ROTATION ≤ w.handler.context.bytesWritten)
    (p : String) :
    (Logger_Handler_rotatingHandlerPublishCallback c.1 w c.2).2.disk p =
      if p = realFilePath w.handler.context.filePath
          ((w.handler.context.rotationCounter + 1) % SIZE_MOD)
      then some (transmitted c.2 c.1.written.val c.1.reached) else w.disk p := by
  obtain ⟨o, content⟩ := c
  simp only [Call.succeeds] at hs
  simp only
  have hge2 : w.handler.context.bytesWritten ≥ w.handler.context.BYTES_BEFORE_ROTATION := hge
  cases hp : o.pathOk with
  | false => simp [Logger_Handler_rotatingHandlerPublishCallback, hge2, hp] at hs
  | true =>
    cases hr : o.reopenOk with
    | false => simp [Logger_Handler_rotatingHandlerPublishCallback, hge2, hp, hr] at hs
    | true =>
      cases hb : o.bufferOk with
      | false =>
        simp [Logger_Handler_rotatingHandlerPublishCallback,
          Logger_Handler_rotatingHandlerPublishCallback.write,
          Logger_Handler_streamHandlerPublishCallback, Logger_Buffer_new, hge2, hp, hr, hb] at hs
      | true =>
        by_cases hpe : p = realFilePath w.handler.context.filePath
            ((w.handler.context.rotationCounter + 1) % SIZE_MOD)
        · simp [Logger_Handler_rotatingHandlerPublishCallback,
            Logger_Handler_rotatingHandlerPublishCallback.write,
            Logger_Handler_streamHandlerPublishCallback, Logger_Buffer_new, hge2, hp, hr, hb,
            fprintf_effect, truncate, hpe]
        · simp [Logger_Handler_rotatingHandlerPublishCallback,
            Logger_Handler_rotatingHandlerPublishCallback.write,
            Logger_Handler_streamHandlerPublishCallback, Logger_Buffer_new, hge2, hp, hr, hb,
            fprintf_effect, truncate, hpe]

/-- A run of successful calls on a context with threshold 0 and counter `r`: call
number `j` (from 0) writes its bytes to the file with suffix `r + j + 1`, which no
later call touches, and no other file changes. -/
theorem publishAll_zero_threshold (calls : List Call)
    (w : World Logger_Handler_rotatingHandlerContext) (r : Nat) (base : String)
    (hT : w.handler.context.BYTES_BEFORE_ROTATION = 0)
    (hr : w.handler.context.rotationCounter = r)
    (hbase : w.handler.context.filePath = base)
    (hall : allSucceed w calls = true) (hlen : r + calls.length < SIZE_MOD) :
    (publishAll w calls).handler.context.rotationCounter = r + calls.length ∧
    (∀ j c, calls[j]? = some c →
      (publishAll w calls).disk (realFilePath base (r + j + 1)) =
        some (transmitted c.2 c.1.written.val c.1.reached)) ∧
    (∀ p, (∀ j, j < calls.length → p ≠ realFilePath base (r + j + 1)) →
      (publishAll w calls).disk p = w.disk p) := by
  induction calls generalizing w r with
  | nil => simp [publishAll, hr]
  | cons c rest ih =>
    simp only [allSucceed, Bool.and_eq_true] at hall
    obtain ⟨hc, hrest⟩ := hall
    simp only [List.length_cons] at hlen
    have hge : w.handler.context.BYTES_BEFORE_ROTATION ≤ w.handler.context.bytesWritten := by
      rw [hT]
      exact Nat.zero_le _
    obtain ⟨-, s2, s3, s4, -⟩ :=
      Logger_Handler_rotatingHandlerPublishCallback_of_succeeds c w hc
    obtain ⟨hrot, -⟩ := s4 hge
    have hdisk := Logger_Handler_rotatingHandlerPublishCallback_rotate_disk c w hc hge
    have hr' : (Logger_Handler_rotatingHandlerPublishCallback c.1 w
        c.2).2.handler.context.rotationCounter = r + 1 := by
      rw [hrot.1, hr]
      exact Nat.mod_eq_of_lt (by omega)
    rw [hr, hbase, Nat.mod_eq_of_lt (by omega : r + 1 < SIZE_MOD)] at hdisk
    obtain ⟨i1, i2, i3⟩ := ih _ (r + 1) (s2.trans hT) hr' (s3.trans hbase) hrest (by omega)
    simp only [publishAll]
    refine ⟨by rw [i1, List.length_cons]; omega, ?_, ?_⟩
    · intro j d hj
      cases j with
      | zero =>
        simp only [List.getElem?_cons_zero, Option.some.injEq] at hj
        subst hj
        rw [i3, hdisk]
        · simp
        · intro k _ heq
          have := realFilePath_injective base _ _ heq
          omega
      | succ j =>
        simp only [List.getElem?_cons_succ] at hj
        have := i2 j d hj
        rw [show r + (j + 1) + 1 = r + 1 + j + 1 by omega]
        exact this
    · intro p hp
      rw [i3, hdisk]
      · have hne := hp 0 (by simp)
        simp only [Nat.add_zero] at hne
        simp [hne]
      · intro k hk
        have := hp (k + 1) (by simp only [List.length_cons]; omega)
        rw [show r + (k + 1) + 1 = r + 1 + k + 1 by omega] at this
        exact this

/-- C11 as stated fails on the first file: with threshold 0 the first publish
rotates before it writes, so `log.0`, which the constructor opened, stays empty.
After two publishes the counter is 2, `log.1` and `log.2` hold one record each, and
`log.0` holds none. -/
theorem zero_threshold_first_file_empty :
    (Logger_Handler_newRotatingHandler NewOutcomes.ok (fun _ => none) "log"
      LOGGER_LEVEL_DEBUG 1 0).handler = some sampleRotatingZero.handler ∧
    allSucceed sampleRotatingZero
      [(Outcomes.ok 6, "first\n".toList), (Outcomes.ok 7, "second\n".toList)] = true ∧
    (publishAll sampleRotatingZero [(Outcomes.ok 6, "first\n".toList),
      (Outcomes.ok 7, "second\n".toList)]).handler.context.rotationCounter = 2 ∧
    (publishAll sampleRotatingZero [(Outcomes.ok 6, "first\n".toList),
      (Outcomes.ok 7, "second\n".toList)]).disk "log.0" = some [] ∧
    (publishAll sampleRotatingZero [(Outcomes.ok 6, "first\n".toList),
      (Outcomes.ok 7, "second\n".toList)]).disk "log.1" = some "first\n".toList ∧
    (publishAll sampleRotatingZero [(Outcomes.ok 6, "first\n".toList),
      (Outcomes.ok 7, "second\n".toList)]).disk "log.2" = some "second\n".toList :=
  ⟨by decide, by decide, by decide, by decide, by decide, by decide⟩

theorem allSucceed_take (calls : List Call) (w : World Logger_Handler_rotatingHandlerContext)
    (k : Nat) (hall : allSucceed w calls = true) : allSucceed w (calls.take k) = true := by
  induction calls generalizing w k with
  | nil => simp [allSucceed]
  | cons c rest ih =>
    cases k with
    | zero => simp [allSucceed]
    | succ k =>
      simp only [allSucceed, Bool.and_eq_true] at hall
      simp only [List.take_succ_cons, allSucceed, Bool.and_eq_true]
      exact ⟨hall.1, ih _ k hall.2⟩

/-- C11, amended. Take a rotating handler constructed with threshold 0 and a
sequence of publish calls that all succeed (each returns a buffer), fewer than
`2 ^ 64` of them, so that the `size_t` counter has not wrapped. Every call rotates,
and the `k`-th call leaves `rotationCounter = k`. After the calls the file
`filePath.j` holds exactly the bytes that went out in the write of the `j`-th call,
for `j` from 1 to the number of calls, and that is exactly the rendered text of the
`j`-th record when `fprintf` reported all of it written. `filePath.0`, the file the
constructor opened, is empty. -/
theorem zero_threshold_rotates_every_call (o : NewOutcomes) (disk : Disk) (filePath : String)
    (level : Logger_Level_T) (formatter : Nat)
    (h : Logger_Handler Logger_Handler_rotatingHandlerContext)
    (w0 : World Logger_Handler_rotatingHandlerContext)
    (hnew : (Logger_Handler_newRotatingHandler o disk filePath level formatter 0).handler
      = some h)
    (hw0 : w0 = (Logger_Handler_newRotatingHandler o disk filePath level formatter 0).worldOf h)
    (calls : List Call) (hall : allSucceed w0 calls = true)
    (hlen : calls.length < SIZE_MOD) :
    (∀ i, i < calls.length →
      Rotated (publishAll w0 (calls.take i)) (publishAll w0 (calls.take (i + 1)))) ∧
    (∀ k, k ≤ calls.length →
      (publishAll w0 (calls.take k)).handler.context.rotationCounter = k) ∧
    (publishAll w0 calls).handler.context.rotationCounter = calls.length ∧
    (∀ j c, calls[j]? = some c →
      (publishAll w0 calls).disk (realFilePath filePath (j + 1)) =
        some (transmitted c.2 c.1.written.val c.1.reached)) ∧
    (∀ j c, calls[j]? = some c → c.1.written.val = (c.2.length : Int) →
      (publishAll w0 calls).disk (realFilePath filePath (j + 1)) = some c.2) ∧
    (publishAll w0 calls).disk (realFilePath filePath 0) = some [] := by
  obtain ⟨hctx, -, -⟩ :=
    Logger_Handler_newRotatingHandler_context o disk filePath level formatter 0 h hnew
  have hT : w0.handler.context.BYTES_BEFORE_ROTATION = 0 := by
    rw [hw0]
    simp [NewResult.worldOf, hctx]
  have hr : w0.handler.context.rotationCounter = 0 := by
    rw [hw0]
    simp [NewResult.worldOf, hctx]
  have hbase : w0.handler.context.filePath = filePath := by
    rw [hw0]
    simp [NewResult.worldOf, hctx]
  have hg : w0.handler.context.bytesWritten = 0 % SIZE_MOD := by
    rw [hw0]
    simp [NewResult.worldOf, hctx]
  have hdisk0 : w0.disk (realFilePath filePath 0) = some [] := by
    rw [hw0]
    cases hp : o.pathOk <;> cases ho : o.openOk <;> cases hc : o.contextOk <;>
      cases hh : o.handlerOk <;>
      simp [Logger_Handler_newRotatingHandler, Logger_Handler_new, hp, ho, hc, hh] at hnew
    simp [NewResult.worldOf, Logger_Handler_newRotatingHandler, hp, ho, hc, truncate]
  obtain ⟨z1, z2, z3⟩ := publishAll_zero_threshold calls w0 0 filePath hT hr hbase hall
    (by omega)
  simp only [Nat.zero_add] at z1 z2 z3
  refine ⟨?_, ?_, z1, z2, ?_, ?_⟩
  · intro i hi
    obtain ⟨-, -, r3, -, -⟩ := publishAll_run calls w0 0 0 hT hg hall i hi
    exact r3.mpr (Nat.zero_le _)
  · intro k hk
    have hlk : (calls.take k).length = k := by
      rw [List.length_take]
      omega
    obtain ⟨t1, -, -⟩ := publishAll_zero_threshold (calls.take k) w0 0 filePath hT hr hbase
      (allSucceed_take calls w0 k hall) (by omega)
    rw [t1, hlk]
    omega
  · intro j c hj hfull
    rw [z2 j c hj]
    simp [transmitted, hfull]
  · rw [z3, hdisk0]
    intro j _ heq
    have := realFilePath_injective filePath _ _ heq
    omega

/-- C11, amended, at work: threshold 0, base path `log`, two calls that return a
buffer. The second `fprintf` reports an error after 5 bytes: the counter is 2 and
`log.2` holds those 5 bytes. -/
theorem zero_threshold_rotates_every_call_witness :
    (Logger_Handler_newRotatingHandler NewOutcomes.ok (fun _ => none) "log"
      LOGGER_LEVEL_DEBUG 1 0).handler = some sampleRotatingZero.handler ∧
    allSucceed sampleRotatingZero
      [(Outcomes.ok 6, "first\n".toList), (Outcomes.writeError, "second\n".toList)] = true ∧
    [(Outcomes.ok 6, "first\n".toList), (Outcomes.writeError, "second\n".toList)].length
      < SIZE_MOD ∧
    (publishAll sampleRotatingZero [(Outcomes.ok 6, "first\n".toList),
      (Outcomes.writeError, "second\n".toList)]).disk "log.1" = some "first\n".toList ∧
    (publishAll sampleRotatingZero [(Outcomes.ok 6, "first\n".toList),
      (Outcomes.writeError, "second\n".toList)]).disk "log.2" = some "secon".toList ∧
    (publishAll sampleRotatingZero [(Outcomes.ok 6, "first\n".toList),
      (Outcomes.writeError, "second\n".toList)]).handler.context.rotationCounter
      = [(Outcomes.ok 6, "first\n".toList), (Outcomes.writeError, "second\n".toList)].length :=
  ⟨by decide, by decide, by decide, by decide, by decide,
    (zero_threshold_rotates_every_call NewOutcomes.ok (fun _ => none) "log"
      LOGGER_LEVEL_DEBUG 1 sampleRotatingZero.handler sampleRotatingZero (by decide) rfl
      [(Outcomes.ok 6, "first\n".toList), (Outcomes.writeError, "second\n".toList)]
      (by decide) (by decide)).2.2.1⟩

/-! ## Failures of the rotating publish -/

/-- C12. A rotating publish that has entered rotation (`bytesWritten >= threshold`)
and in which path synthesis or the reopen fails returns no buffer, writes nothing
(the files and the lifetime total of the handler are as before), and leaves
`bytesWritten` of the context at its value before the call. -/
theorem rotation_failure_keeps_count (o : Outcomes)
    (w : World Logger_Handler_rotatingHandlerContext) (content : List Char)
    (hge : w.handler.context.bytesWritten ≥ w.handler.context.BYTES_BEFORE_ROTATION)
    (hfail : o.pathOk = false ∨ o.reopenOk = false) :
    (Logger_Handler_rotatingHandlerPublishCallback o w content).1 = none ∧
    (Logger_Handler_rotatingHandlerPublishCallback o w content).2.disk = w.disk ∧
    (Logger_Handler_rotatingHandlerPublishCallback o w content).2.handler.bytesWritten =
      w.handler.bytesWritten ∧
    (Logger_Handler_rotatingHandlerPublishCallback o w content).2.handler.context.bytesWritten =
      w.handler.context.bytesWritten := by
  cases hp : o.pathOk with
  | false => simp [Logger_Handler_rotatingHandlerPublishCallback, hge, hp]
  | true =>
    have hr : o.reopenOk = false := by
      rcases hfail with h | h
      · rw [hp] at h
        cases h
      · exact h
    simp [Logger_Handler_rotatingHandlerPublishCallback, hge, hp, hr]

/-- C12 at work: the scenario handler with 12 of 10 bytes written, path synthesis
failing. -/
theorem rotation_failure_keeps_count_witness :
    sampleRotatingDue.handler.context.bytesWritten
      ≥ sampleRotatingDue.handler.context.BYTES_BEFORE_ROTATION ∧
    (Outcomes.pathFails.pathOk = false ∨ Outcomes.pathFails.reopenOk = false) ∧
    (Logger_Handler_rotatingHandlerPublishCallback Outcomes.pathFails sampleRotatingDue
      "second\n".toList).1 = none ∧
    (Logger_Handler_rotatingHandlerPublishCallback Outcomes.pathFails sampleRotatingDue
      "second\n".toList).2.handler.context.bytesWritten = 12 :=
  ⟨by decide, Or.inl rfl,
    (rotation_failure_keeps_count Outcomes.pathFails sampleRotatingDue "second\n".toList
      (by decide) (Or.inl rfl)).1,
    by decide⟩

/-- C13, the code at the failing inputs. The scenario handler has written 12 of 10
bytes to `log.0` with `rotationCounter = 0`. When path synthesis fails in the next
publish, the call returns no buffer with `rotationCounter = 1` and the stream still
on `log.0`; when the reopen fails, it returns no buffer with `rotationCounter = 1`
and the stream closed. In both the counter moved without a rotation and is not the
suffix of an open file. -/
theorem rotationCounter_ahead_of_file_on_failure :
    sampleRotatingDue.handler.context.rotationCounter = 0 ∧
    sampleRotatingDue.handler.file = some (realFilePath "log" 0) ∧
    (Logger_Handler_rotatingHandlerPublishCallback Outcomes.pathFails sampleRotatingDue
      "second\n".toList).1 = none ∧
    (Logger_Handler_rotatingHandlerPublishCallback Outcomes.pathFails sampleRotatingDue
      "second\n".toList).2.handler.context.rotationCounter = 1 ∧
    (Logger_Handler_rotatingHandlerPublishCallback Outcomes.pathFails sampleRotatingDue
      "second\n".toList).2.handler.file = some (realFilePath "log" 0) ∧
    (Logger_Handler_rotatingHandlerPublishCallback Outcomes.reopenFails sampleRotatingDue
      "second\n".toList).1 = none ∧
    (Logger_Handler_rotatingHandlerPublishCallback Outcomes.reopenFails sampleRotatingDue
      "second\n".toList).2.handler.context.rotationCounter = 1 ∧
    (Logger_Handler_rotatingHandlerPublishCallback Outcomes.reopenFails sampleRotatingDue
      "second\n".toList).2.handler.file = none :=
  ⟨by decide, by decide, by decide, by decide, by decide, by decide, by decide, by decide⟩

/-- C14 as stated fails in two ways. A negative `fprintf` result is not passed on
as a failure: the stream callback sets `errno` to `EIO`, counts 0 bytes and returns
a buffer, and the rotating publish returns that buffer like after any write. And a
truncated write, flagged as an I/O error, still adds its 5 bytes to `bytesWritten`. -/
theorem rotating_publish_returns_buffer_on_write_error :
    (Logger_Handler_rotatingHandlerPublishCallback Outcomes.writeError sampleRotating
      "hello world\n".toList).1 = some { size := 0, content := "hello world\n".toList } ∧
    (Logger_Handler_rotatingHandlerPublishCallback Outcomes.writeError sampleRotating
      "hello world\n".toList).2.errno = some Errno.EIO ∧
    (Logger_Handler_rotatingHandlerPublishCallback (Outcomes.ok 5) sampleRotating
      "hello world\n".toList).2.errno = some Errno.EIO ∧
    sampleRotating.handler.context.bytesWritten = 0 ∧
    (Logger_Handler_rotatingHandlerPublishCallback (Outcomes.ok 5) sampleRotating
      "hello world\n".toList).2.handler.context.bytesWritten = 5 :=
  ⟨by decide, by decide, by decide, by decide, by decide⟩

/-- C14, amended. Step 3 of the rotating publish, for a context whose `bytesWritten`
is a `size_t`. When the delegated stream write returns a buffer, the rotating
publish returns it and `bytesWritten` increases by exactly the size it reports (in
`size_t`; the plain sum when that does not pass `SIZE_MAX`), also when the write was
flagged as truncated. When the delegated write returns no buffer, which is when the
buffer descriptor cannot be allocated, the rotating publish returns no buffer, sets
`errno` to `ENOMEM` and does not update `bytesWritten`. A negative write result is
not such a failure: with the descriptor allocated, the call returns a buffer of
size 0 with `errno` set to `EIO`, and `bytesWritten` is unchanged. -/
theorem rotating_write_step (o : Outcomes) (w : World Logger_Handler_rotatingHandlerContext)
    (content : List Char) (hsize : w.handler.context.bytesWritten < SIZE_MOD) :
    (∀ b, (Logger_Handler_streamHandlerPublishCallback o w content).1 = some b →
      (Logger_Handler_rotatingHandlerPublishCallback.write o w content).1 = some b ∧
      (Logger_Handler_rotatingHandlerPublishCallback.write o w
          content).2.handler.context.bytesWritten
        = (w.handler.context.bytesWritten + b.size) % SIZE_MOD ∧
      (w.handler.context.bytesWritten + b.size < SIZE_MOD →
        (Logger_Handler_rotatingHandlerPublishCallback.write o w
            content).2.handler.context.bytesWritten
          = w.handler.context.bytesWritten + b.size)) ∧
    ((Logger_Handler_streamHandlerPublishCallback o w content).1 = none ↔ o.bufferOk = false) ∧
    ((Logger_Handler_streamHandlerPublishCallback o w content).1 = none →
      (Logger_Handler_rotatingHandlerPublishCallback.write o w content).1 = none ∧
      (Logger_Handler_rotatingHandlerPublishCallback.write o w content).2.errno
        = some Errno.ENOMEM ∧
      (Logger_Handler_rotatingHandlerPublishCallback.write o w
          content).2.handler.context.bytesWritten
        = w.handler.context.bytesWritten) ∧
    (o.bufferOk = true → o.written.val < 0 →
      (Logger_Handler_rotatingHandlerPublishCallback.write o w content).1
        = some { size := 0, content := content } ∧
      (Logger_Handler_rotatingHandlerPublishCallback.write o w content).2.errno
        = some Errno.EIO ∧
      (Logger_Handler_rotatingHandlerPublishCallback.write o w
          content).2.handler.context.bytesWritten
        = w.handler.context.bytesWritten) := by
  refine ⟨?_, ?_, ?_, ?_⟩
  · intro b hb
    have hw : (Logger_Handler_rotatingHandlerPublishCallback.write o w
        content).2.handler.context.bytesWritten
        = (w.handler.context.bytesWritten + b.size) % SIZE_MOD ∧
        (Logger_Handler_rotatingHandlerPublishCallback.write o w content).1 = some b := by
      simp only [Logger_Handler_rotatingHandlerPublishCallback.write, hb]
      simp [Logger_Handler_streamHandlerPublishCallback]
    refine ⟨hw.2, hw.1, ?_⟩
    intro hsmall
    rw [hw.1]
    exact Nat.mod_eq_of_lt hsmall
  · cases hb : o.bufferOk <;>
      simp [Logger_Handler_streamHandlerPublishCallback, Logger_Buffer_new, hb]
  · intro hnone
    simp only [Logger_Handler_rotatingHandlerPublishCallback.write, hnone]
    simp [Logger_Handler_streamHandlerPublishCallback]
  · intro hb hneg
    have hstream : (Logger_Handler_streamHandlerPublishCallback o w content).1 =
        some { size := 0, content := content } := by
      simp [Logger_Handler_streamHandlerPublishCallback, Logger_Buffer_new, hb, hneg]
    simp only [Logger_Handler_rotatingHandlerPublishCallback.write, hstream]
    refine ⟨trivial, ?_, ?_⟩
    · simp only [Logger_Handler_streamHandlerPublishCallback, hneg, if_true]
      split <;> rfl
    · simp only [Logger_Handler_streamHandlerPublishCallback, Nat.add_zero]
      exact Nat.mod_eq_of_lt hsize

/-- C14, amended, at work on the scenario handler: a failed buffer allocation is
passed on and leaves the count alone; a negative write result is not passed on. -/
theorem rotating_write_step_witness :
    sampleRotating.handler.context.bytesWritten < SIZE_MOD ∧
    (Logger_Handler_streamHandlerPublishCallback (Outcomes.bufferFails 12) sampleRotating
      "hello world\n".toList).1 = none ∧
    (Logger_Handler_rotatingHandlerPublishCallback.write (Outcomes.bufferFails 12) sampleRotating
      "hello world\n".toList).1 = none ∧
    (Logger_Handler_rotatingHandlerPublishCallback.write Outcomes.writeError sampleRotating
      "hello world\n".toList).1 = some { size := 0, content := "hello world\n".toList } :=
  ⟨by decide, by decide,
    ((rotating_write_step (Outcomes.bufferFails 12) sampleRotating "hello world\n".toList
      (by decide)).2.2.1 (by decide)).1,
    ((rotating_write_step Outcomes.writeError sampleRotating "hello world\n".toList
      (by decide)).2.2.2 rfl (by decide)).1⟩

/-! ## The stream publish -/

theorem counted_eq_toNat (o : Outcomes) : counted o = o.written.val.toNat := by
  simp only [counted]
  omega

theorem Logger_Handler_streamHandlerPublishCallback_total {C : Type} (o : Outcomes) (w : World C)
    (content : List Char) :
    (Logger_Handler_streamHandlerPublishCallback o w content).2.handler.bytesWritten =
      (w.handler.bytesWritten + counted o) % SIZE_MOD := by
  rw [counted_eq_toNat]
  by_cases hneg : o.written.val < 0
  · have hz : o.written.val.toNat = 0 := by omega
    simp [Logger_Handler_streamHandlerPublishCallback, hneg, hz]
  · simp [Logger_Handler_streamHandlerPublishCallback, hneg]

theorem streamAll_total {C : Type} (calls : List Call) (w : World C)
    (hsize : w.handler.bytesWritten < SIZE_MOD) :
    (streamAll w calls).handler.bytesWritten =
      (w.handler.bytesWritten + countedSum calls) % SIZE_MOD := by
  induction calls generalizing w with
  | nil =>
    simp only [streamAll, countedSum, List.map_nil, List.sum_nil, Nat.add_zero]
    exact (Nat.mod_eq_of_lt hsize).symm
  | cons c rest ih =>
    have hpos : 0 < SIZE_MOD := by
      rw [SIZE_MOD_eq]
      decide
    simp only [streamAll]
    rw [ih _ (by
      rw [Logger_Handler_streamHandlerPublishCallback_total]
      exact Nat.mod_lt _ hpos),
      Logger_Handler_streamHandlerPublishCallback_total, Nat.mod_add_mod]
    simp [countedSum, Nat.add_assoc]

theorem countedSum_take_le (calls : List Call) (i : Nat) :
    countedSum (calls.take i) ≤ countedSum (calls.take (i + 1)) ∧
    countedSum (calls.take i) ≤ countedSum calls := by
  induction calls generalizing i with
  | nil => simp [countedSum]
  | cons c rest ih =>
    cases i with
    | zero => simp [countedSum]
    | succ i =>
      obtain ⟨h1, h2⟩ := ih i
      simp only [countedSum, List.take_succ_cons, List.map_cons, List.sum_cons] at h1 h2 ⊢
      omega

/-- C15. Byte accounting of the stream publish. For every result `r` of the write,
the counted bytes are `max(r, 0)`: the lifetime total of the handler after the call
is the previous total plus `max(r, 0)` (in `size_t`; the plain sum when it does not
pass `SIZE_MAX`), the buffer returned has size `max(r, 0)`, and a negative `r` counts
0 and sets `errno` to `EIO`. Over any sequence of publishes, started from a total
that is a `size_t`, the total grows by the sum of the counted bytes (in `size_t`),
and as long as that sum does not pass `SIZE_MAX` it is the plain sum and no call
lowers it. -/
theorem stream_publish_accounting {C : Type} (o : Outcomes) (w : World C)
    (content : List Char) (calls : List Call) :
    ((Logger_Handler_streamHandlerPublishCallback o w content).2.handler.bytesWritten =
      (w.handler.bytesWritten + (max o.written.val 0).toNat) % SIZE_MOD) ∧
    (w.handler.bytesWritten + (max o.written.val 0).toNat < SIZE_MOD →
      (Logger_Handler_streamHandlerPublishCallback o w content).2.handler.bytesWritten =
        w.handler.bytesWritten + (max o.written.val 0).toNat) ∧
    (∀ b, (Logger_Handler_streamHandlerPublishCallback o w content).1 = some b →
      b.size = (max o.written.val 0).toNat) ∧
    (o.written.val < 0 →
      (max o.written.val 0).toNat = 0 ∧
      (Logger_Handler_streamHandlerPublishCallback o w content).2.errno = some Errno.EIO) ∧
    (w.handler.bytesWritten < SIZE_MOD →
      (streamAll w calls).handler.bytesWritten =
        (w.handler.bytesWritten + countedSum calls) % SIZE_MOD) ∧
    (w.handler.bytesWritten + countedSum calls < SIZE_MOD →
      (streamAll w calls).handler.bytesWritten = w.handler.bytesWritten + countedSum calls ∧
      ∀ i, (streamAll w (calls.take i)).handler.bytesWritten
        ≤ (streamAll w (calls.take (i + 1))).handler.bytesWritten) := by
  have htotal := Logger_Handler_streamHandlerPublishCallback_total o w content
  simp only [counted] at htotal
  refine ⟨htotal, ?_, ?_, ?_, ?_, ?_⟩
  · intro hsmall
    rw [htotal]
    exact Nat.mod_eq_of_lt hsmall
  · intro b hb
    have hmod := CInt.toNat_mod o.written
    cases hbuf : o.bufferOk with
    | false => simp [Logger_Handler_streamHandlerPublishCallback, Logger_Buffer_new, hbuf] at hb
    | true =>
      by_cases hneg : o.written.val < 0
      · have hz : (max o.written.val 0).toNat = 0 := by omega
        simp [Logger_Handler_streamHandlerPublishCallback, Logger_Buffer_new, hbuf, hneg] at hb
        rw [← hb, hz]
      · have hz : (max o.written.val 0).toNat = o.written.val.toNat := by omega
        simp [Logger_Handler_streamHandlerPublishCallback, Logger_Buffer_new, hbuf, hneg,
          hmod] at hb
        rw [← hb, hz]
  · intro hneg
    refine ⟨by omega, ?_⟩
    simp only [Logger_Handler_streamHandlerPublishCallback, hneg, if_true]
    split <;> rfl
  · intro hsize
    exact streamAll_total calls w hsize
  · intro hsmall
    have hsize : w.handler.bytesWritten < SIZE_MOD := by omega
    refine ⟨?_, ?_⟩
    · rw [streamAll_total calls w hsize]
      exact Nat.mod_eq_of_lt hsmall
    · intro i
      obtain ⟨h1, h2⟩ := countedSum_take_le calls i
      have h3 := (countedSum_take_le calls (i + 1)).2
      rw [streamAll_total _ w hsize, streamAll_total _ w hsize,
        Nat.mod_eq_of_lt (by omega), Nat.mod_eq_of_lt (by omega)]
      omega

/-- C15 at work: a stream handler takes a write of 6 bytes, a failed write (`-1`)
and a write of 7 bytes; its total is 13. -/
theorem stream_publish_accounting_witness :
    sampleStream.handler.bytesWritten
      + countedSum [(Outcomes.ok 6, "first\n".toList),
          (Outcomes.writeError, "lost\n".toList), (Outcomes.ok 7, "second\n".toList)]
      < SIZE_MOD ∧
    (streamAll sampleStream [(Outcomes.ok 6, "first\n".toList),
      (Outcomes.writeError, "lost\n".toList),
      (Outcomes.ok 7, "second\n".toList)]).handler.bytesWritten = 13 ∧
    (streamAll sampleStream [(Outcomes.ok 6, "first\n".toList),
      (Outcomes.writeError, "lost\n".toList),
      (Outcomes.ok 7, "second\n".toList)]).handler.bytesWritten =
      sampleStream.handler.bytesWritten
        + countedSum [(Outcomes.ok 6, "first\n".toList),
            (Outcomes.writeError, "lost\n".toList), (Outcomes.ok 7, "second\n".toList)] :=
  ⟨by decide, by decide,
    ((stream_publish_accounting (Outcomes.ok 0) sampleStream [] [(Outcomes.ok 6, "first\n".toList),
      (Outcomes.writeError, "lost\n".toList), (Outcomes.ok 7, "second\n".toList)]).2.2.2.2.2
      (by decide)).1⟩

/-! ## Construction of the rotating handler -/

/-- C16, the code at the failing inputs. A successful construction on base path
`log` opens `log.0` with `rotationCounter = 0` and `bytesWritten = 0`. When `malloc`
returns no context after the file was opened, the constructor returns `NULL` and
the stream on `log.0` is still open; when `Logger_Handler_new` returns `NULL`, the
constructor returns `NULL` with the stream still open and the context still
allocated. Neither branch calls `fclose` or `free`. -/
theorem Logger_Handler_newRotatingHandler_failure_keeps_resources :
    (Logger_Handler_newRotatingHandler NewOutcomes.ok (fun _ => none) "log"
      LOGGER_LEVEL_DEBUG 1 10).handler = some sampleRotating.handler ∧
    sampleRotating.handler.file = some "log.0" ∧
    sampleRotating.handler.context.rotationCounter = 0 ∧
    sampleRotating.handler.context.bytesWritten = 0 ∧
    (Logger_Handler_newRotatingHandler NewOutcomes.contextFails (fun _ => none) "log"
      LOGGER_LEVEL_DEBUG 1 10).handler = none ∧
    (Logger_Handler_newRotatingHandler NewOutcomes.contextFails (fun _ => none) "log"
      LOGGER_LEVEL_DEBUG 1 10).openStream = some "log.0" ∧
    (Logger_Handler_newRotatingHandler NewOutcomes.handlerFails (fun _ => none) "log"
      LOGGER_LEVEL_DEBUG 1 10).handler = none ∧
    (Logger_Handler_newRotatingHandler NewOutcomes.handlerFails (fun _ => none) "log"
      LOGGER_LEVEL_DEBUG 1 10).openStream = some "log.0" ∧
    (Logger_Handler_newRotatingHandler NewOutcomes.handlerFails (fun _ => none) "log"
      LOGGER_LEVEL_DEBUG 1 10).liveContext = some sampleRotating.handler.context :=
  ⟨by decide, by decide, by decide, by decide, by decide, by decide, by decide, by decide,
    by decide⟩

/-! ## The front end and the chain again -/

/-- C17. `_Logger_log`. If building the message fails, the result is
`LOGGER_ERR_OUT_OF_MEMORY`, no handler is offered the record or invoked and the
state is untouched; the same if building the record fails. Otherwise the call is
exactly `Logger_logRecord` on the record made of the name of the logger, the level
and metadata given and the message. The logger itself is only read. -/
theorem Logger_log_result {W : Type} (ops : HandlerOps W) (message : Option String)
    (recordOk : Bool) (self : Logger_T) (level : Logger_Level_T) (file : String) (line : Nat)
    (function : String) (timestamp : Int) (w : W) :
    (message = none →
      (_Logger_log ops message recordOk self level file line function timestamp w).err
        = LOGGER_ERR_OUT_OF_MEMORY ∧
      (_Logger_log ops message recordOk self level file line function timestamp w).offers = [] ∧
      (_Logger_log ops message recordOk self level file line function timestamp w).invoked
        = [] ∧
      (_Logger_log ops message recordOk self level file line function timestamp w).world = w) ∧
    (message ≠ none → recordOk = false →
      (_Logger_log ops message recordOk self level file line function timestamp w).err
        = LOGGER_ERR_OUT_OF_MEMORY ∧
      (_Logger_log ops message recordOk self level file line function timestamp w).offers = [] ∧
      (_Logger_log ops message recordOk self level file line function timestamp w).invoked
        = [] ∧
      (_Logger_log ops message recordOk self level file line function timestamp w).world = w) ∧
    (∀ msg, message = some msg → recordOk = true →
      _Logger_log ops message recordOk self level file line function timestamp w =
        Logger_logRecord ops self
          { name := self.name, level := level, file := file, line := line,
            function := function, timestamp := timestamp, message := msg } w) := by
  refine ⟨?_, ?_, ?_⟩
  · intro hm
    subst hm
    simp [_Logger_log, LogResult.invoked]
  · intro hm hr
    subst hr
    cases message with
    | none => exact absurd rfl hm
    | some msg => simp [_Logger_log, Logger_Record_new, LogResult.invoked]
  · intro msg hm hr
    subst hm hr
    simp [_Logger_log, Logger_Record_new, Logger_getName]

/-- C17 at work: with the message built and the record allocated, a call at `ERROR`
on the chain `2, 1` publishes to both handlers; with no message it reaches none. -/
theorem Logger_log_result_witness :
    (some "disk full" : Option String) = some "disk full" ∧
    (_Logger_log (sampleOps [] []) (some "disk full") true
      (sampleLogger LOGGER_LEVEL_INFO [2, 1]) LOGGER_LEVEL_ERROR "main.c" 7 "main" 0 []).invoked
      = [2, 1] ∧
    (_Logger_log (sampleOps [] []) none true
      (sampleLogger LOGGER_LEVEL_INFO [2, 1]) LOGGER_LEVEL_ERROR "main.c" 7 "main" 0 []).err
      = LOGGER_ERR_OUT_OF_MEMORY :=
  ⟨rfl, by decide,
    ((Logger_log_result (sampleOps [] []) none true (sampleLogger LOGGER_LEVEL_INFO [2, 1])
      LOGGER_LEVEL_ERROR "main.c" 7 "main" 0 []).1 rfl).1⟩

/-- C18. `Logger_addHandler` prepends. When the list node is allocated it returns
the handler passed in and the chain is that handler followed by the old chain,
name and level as before; when the allocation fails it returns `NULL` and the
logger is exactly as before the call. -/
theorem Logger_addHandler_prepends (mallocOk : Bool) (self : Logger_T) (handler : Logger_Handler_T) :
    (Logger_HandlersList_new mallocOk handler self.handlers = none ↔ mallocOk = false) ∧
    (mallocOk = true →
      (Logger_addHandler mallocOk self handler).1 = some handler ∧
      (Logger_addHandler mallocOk self handler).2.handlers = handler :: self.handlers ∧
      (Logger_addHandler mallocOk self handler).2 =
        { self with handlers := handler :: self.handlers }) ∧
    (mallocOk = false →
      (Logger_addHandler mallocOk self handler).1 = none ∧
      (Logger_addHandler mallocOk self handler).2 = self) := by
  cases mallocOk <;> simp [Logger_addHandler, Logger_HandlersList_new]

/-- C18 at work: handler `3` added in front of the chain `2, 1`, and a failed
allocation. -/
theorem Logger_addHandler_prepends_witness :
    (Logger_addHandler true (sampleLogger LOGGER_LEVEL_DEBUG [2, 1]) 3).2.handlers = [3, 2, 1] ∧
    (Logger_addHandler false (sampleLogger LOGGER_LEVEL_DEBUG [2, 1]) 3).2
      = sampleLogger LOGGER_LEVEL_DEBUG [2, 1] :=
  ⟨((Logger_addHandler_prepends true (sampleLogger LOGGER_LEVEL_DEBUG [2, 1]) 3).2.1 rfl).2.1,
    ((Logger_addHandler_prepends false (sampleLogger LOGGER_LEVEL_DEBUG [2, 1]) 3).2.2 rfl).2⟩

theorem cstring_nul : cstring ['\x00'] = [] := by
  decide

/-- The check `strcmp("\0", content + n) != 0` on a string without an inner NUL. -/
theorem strcmp_ne_advance (content : List Char) (n : Nat)
    (hnul : '\x00' ∉ content) (hn : n ≤ content.length) :
    strcmp_ne ['\x00'] (advance content n) = true ↔ n < content.length := by
  simp only [strcmp_ne, cstring_nul, advance, decide_eq_true_eq]
  constructor
  · intro hne
    by_contra hge
    have heq : n = content.length := by omega
    subst heq
    apply hne
    simp [cstring]
  · intro hlt heq
    have hdrop : (content ++ ['\x00']).drop n =
        content[n] :: (content ++ ['\x00']).drop (n + 1) := by
      rw [List.drop_eq_getElem_cons (by simp; omega)]
      simp [List.getElem_append_left, hlt]
    have hc : content[n] ≠ '\x00' := by
      intro h0
      exact hnul (h0 ▸ List.getElem_mem hlt)
    rw [hdrop] at heq
    simp [cstring, List.takeWhile_cons, hc] at heq

/-- C19. The truncation check of the stream publish. For content without an inner
NUL and a counted byte count `n` with `0 <= n <= length(content)`, the check
`strcmp("\0", content + n) != 0` fires if and only if the byte at `content[n]` is
not the terminator, which is if and only if `n < length(content)`. A complete write
(`n = length(content)`) leaves `errno` as it was; a truncated one sets `errno` to
`EIO`, and its `n` bytes are still added to the total of the handler. -/
theorem stream_truncation_check {C : Type} (o : Outcomes) (w : World C) (content : List Char)
    (n : Nat) (hnul : '\x00' ∉ content) (hn : n ≤ content.length)
    (hret : o.written.val = (n : Int)) :
    (strcmp_ne ['\x00'] (advance content n) = true ↔
      (content ++ ['\x00'])[n]? ≠ some '\x00') ∧
    (strcmp_ne ['\x00'] (advance content n) = true ↔ n < content.length) ∧
    (n = content.length →
      (Logger_Handler_streamHandlerPublishCallback o w content).2.errno = w.errno) ∧
    (n < content.length →
      (Logger_Handler_streamHandlerPublishCallback o w content).2.errno = some Errno.EIO ∧
      (Logger_Handler_streamHandlerPublishCallback o w content).2.handler.bytesWritten =
        (w.handler.bytesWritten + n) % SIZE_MOD) := by
  have hcheck := strcmp_ne_advance content n hnul hn
  have hnn : ¬ ((n : Int) < 0) := by omega
  have herr : (Logger_Handler_streamHandlerPublishCallback o w content).2.errno =
      if strcmp_ne ['\x00'] (advance content n) = true then some Errno.EIO else w.errno := by
    simp [Logger_Handler_streamHandlerPublishCallback, hret, hnn]
  refine ⟨?_, hcheck, ?_, ?_⟩
  · rw [hcheck]
    constructor
    · intro hlt
      rw [List.getElem?_append_left hlt, List.getElem?_eq_getElem hlt]
      intro h0
      simp only [Option.some.injEq] at h0
      exact hnul (h0 ▸ List.getElem_mem hlt)
    · intro hne
      by_contra hge
      have heq : n = content.length := by omega
      subst heq
      apply hne
      simp
  · intro hfull
    have hno : ¬ (strcmp_ne ['\x00'] (advance content n) = true) := by
      rw [hcheck]
      omega
    rw [herr, if_neg hno]
  · intro hlt
    have hyes := hcheck.mpr hlt
    refine ⟨by rw [herr, if_pos hyes], ?_⟩
    simp [Logger_Handler_streamHandlerPublishCallback, hret, hnn]

/-- C19 at work: of the 12 bytes of the text only 5 are written. -/
theorem stream_truncation_check_witness :
    '\x00' ∉ "hello world\n".toList ∧ 5 ≤ "hello world\n".toList.length ∧
    (Outcomes.ok 5).written.val = ((5 : Nat) : Int) ∧
    (Logger_Handler_streamHandlerPublishCallback (Outcomes.ok 5) sampleStream
      "hello world\n".toList).2.errno = some Errno.EIO ∧
    (Logger_Handler_streamHandlerPublishCallback (Outcomes.ok 12) sampleStream
      "hello world\n".toList).2.errno = none :=
  ⟨by decide, by decide, by decide,
    ((stream_truncation_check (Outcomes.ok 5) sampleStream "hello world\n".toList 5
      (by decide) (by decide) (by decide)).2.2.2 (by decide)).1,
    by decide⟩

/-- C20. Add then pop. A `Logger_addHandler(h)` that returns `h`, followed at once by
`Logger_popHandler`, returns `h` and gives back the logger as it was before the
add: the same chain, name and level. Neither call changes name or level. -/
theorem Logger_addHandler_popHandler (mallocOk : Bool) (self : Logger_T) (h : Logger_Handler_T)
    (hadd : (Logger_addHandler mallocOk self h).1 = some h) :
    Logger_popHandler (Logger_addHandler mallocOk self h).2 = (some h, self) ∧
    (Logger_popHandler (Logger_addHandler mallocOk self h).2).2.handlers = self.handlers ∧
    (Logger_addHandler mallocOk self h).2.name = self.name ∧
    (Logger_addHandler mallocOk self h).2.level = self.level ∧
    (Logger_popHandler self).2.name = self.name ∧
    (Logger_popHandler self).2.level = self.level := by
  have hok : mallocOk = true := by
    cases mallocOk
    · simp [Logger_addHandler, Logger_HandlersList_new] at hadd
    · rfl
  subst hok
  refine ⟨?_, ?_, ?_, ?_, ?_, ?_⟩
  · simp [Logger_addHandler, Logger_HandlersList_new, Logger_popHandler]
  · simp [Logger_addHandler, Logger_HandlersList_new, Logger_popHandler]
  · simp [Logger_addHandler, Logger_HandlersList_new]
  · simp [Logger_addHandler, Logger_HandlersList_new]
  · unfold Logger_popHandler
    split <;> rfl
  · unfold Logger_popHandler
    split <;> rfl

/-- C20 at work: handler `3` added to the chain `2, 1` and popped again. -/
theorem Logger_addHandler_popHandler_witness :
    (Logger_addHandler true (sampleLogger LOGGER_LEVEL_WARNING [2, 1]) 3).1 = some 3 ∧
    Logger_popHandler (Logger_addHandler true (sampleLogger LOGGER_LEVEL_WARNING [2, 1]) 3).2
      = (some 3, sampleLogger LOGGER_LEVEL_WARNING [2, 1]) :=
  ⟨rfl, (Logger_addHandler_popHandler true (sampleLogger LOGGER_LEVEL_WARNING [2, 1]) 3 rfl).1⟩

end Logger
